import Mathlib

/-!
Verification of the CDP connection/session multiplexer (`src/connection.ts`).

The development shallowly embeds the two classes of the source file,
`Connection` and `CDPSession`, as a state machine:

* `ConnState` holds the fields of a `Connection` (`_lastId`, `_closed`,
  the session registry `_sessions`) together with a heap of all session
  objects ever created.  JavaScript object identity is modelled by a
  numeric handle into that heap: removing a session from the registry
  (`Map.delete` / `Map.set` overwriting) does not destroy the object, so
  the heap entry survives, exactly as the JS object survives while a
  caller still references it.
* Each method of the source becomes a Lean function from `ConnState` to a
  new `ConnState` plus a list of observable events `Ev` (transport sends,
  promise settlements, event emissions).  A promise created by
  `sendOrDie` is identified by the command id it registered in
  `_callbacks`; settling it is the event `Ev.settled id outcome`.
* Methods that `throw` are `Except`-valued; every throw in the source
  happens before any state mutation, so a thrown step leaves the state
  unchanged.
* `step`/`run` fold an arbitrary sequence of API calls and transport
  deliveries from a freshly constructed connection, which lets us state
  trace properties (identifier monotonicity, exactly-once settlement).

JavaScript peculiarities kept by the embedding: `object.sessionId || ''`
maps absent and empty identifiers to the root key; `if (object.id)` is a
truthiness test, so an inbound `id` of `0` takes the event path; template
interpolation of an absent field prints `undefined`.
-/

/-- JSON values, for `params`, `result` and `error.data` payloads. -/
inductive JValue where
  | null : JValue
  | bool (b : Bool) : JValue
  | num (n : Int) : JValue
  | str (s : String) : JValue
  | arr (xs : List JValue) : JValue
  | obj (fields : List (String × JValue)) : JValue

/-- Escape `"` and `\` as `JSON.stringify` does (control characters are not
modelled; no input in this development contains them). -/
def escapeJ (s : String) : String :=
  String.mk (s.data.foldr
    (fun c acc => if c == '"' || c == '\\' then '\\' :: c :: acc else c :: acc) [])

/-- Render a string as a JSON string literal. -/
def quoteJ (s : String) : String := "\"" ++ escapeJ s ++ "\""

mutual

/-- Model of `JSON.stringify` on a `JValue`. -/
def serializeJ : JValue → String
  | JValue.null => "null"
  | JValue.bool b => if b then "true" else "false"
  | JValue.num n => toString n
  | JValue.str s => quoteJ s
  | JValue.arr xs => "[" ++ serializeArr xs ++ "]"
  | JValue.obj fs => "\x7b" ++ serializeObj fs ++ "\x7d"

/-- Comma-separated serialization of a JSON array body. -/
def serializeArr : List JValue → String
  | [] => ""
  | [x] => serializeJ x
  | x :: y :: xs => serializeJ x ++ "," ++ serializeArr (y :: xs)

/-- Comma-separated serialization of a JSON object body. -/
def serializeObj : List (String × JValue) → String
  | [] => ""
  | [kv] => quoteJ kv.1 ++ ":" ++ serializeJ kv.2
  | kv :: kv2 :: xs => quoteJ kv.1 ++ ":" ++ serializeJ kv.2 ++ "," ++ serializeObj (kv2 :: xs)

end

/-- The `ProtocolError` interface of the source: `{message, data}`, where
`data` may be absent. -/
structure ProtocolError where
  message : String
  data : Option JValue

/-- Model of `JSON.stringify(object.error)`: key order follows the
interface declaration (`message` then `data`); an absent `data` is
omitted, as `JSON.stringify` omits `undefined` properties. -/
def serializeError (e : ProtocolError) : String :=
  "\x7b\"message\":" ++ quoteJ e.message ++
    (match e.data with
     | none => ""
     | some d => ",\"data\":" ++ serializeJ d) ++ "\x7d"

/-- The `ProtocolResponse` interface: an inbound wire message after
`JSON.parse`, with every field optional. -/
structure InboundMessage where
  id : Option Nat
  method : Option String
  params : Option JValue
  result : Option JValue
  error : Option ProtocolError
  sessionId : Option String

/-- JS template interpolation of a possibly-absent string field
(`undefined` prints as the string `undefined`). -/
def renderOptStr : Option String → String
  | none => "undefined"
  | some s => s

/-- The retained part of a `ProtocolCallback` map entry: the method name
captured at send time.  The `resolve`/`reject` continuations become
`Ev.settled` events; the `from : Error` call-site token is modelled by
the message the source writes into it before rejecting (both reject
sites overwrite the message completely, and `resolve` ignores it). -/
structure ProtocolCallback where
  method : String
deriving DecidableEq

/-- State of one `CDPSession` object: `_sessionId`, whether
`_connection` is still set, and the `_callbacks` map. -/
structure SessionState where
  sessionId : String
  connected : Bool
  callbacks : List (Nat × ProtocolCallback)
deriving DecidableEq

/-- `isClosed()` of the source: true exactly when `_connection` was
cleared. -/
def SessionState.isClosed (s : SessionState) : Bool := !s.connected

/-- State of a `Connection` plus the heap of session objects.
`sessions` maps handle → session object; `registry` is the
`_sessions : Map<string, CDPSession>` field, storing handles. -/
structure ConnState where
  lastId : Nat
  closed : Bool
  nextHandle : Nat
  sessions : List (Nat × SessionState)
  registry : List (String × Nat)
deriving DecidableEq

/-- Handle of the root (browser) session, created by the constructor. -/
def rootHandle : Nat := 0

/-- A connection as built by `new Connection(transport)`: `_lastId = 0`,
not closed, the root session registered under the empty identifier. -/
def initConn : ConnState :=
  { lastId := 0
    closed := false
    nextHandle := 1
    sessions := [(rootHandle, { sessionId := "", connected := true, callbacks := [] })]
    registry := [("", rootHandle)] }

/-- Lookup in an association list, mirroring `Map.get`. -/
def alookup {α β : Type} [BEq α] : List (α × β) → α → Option β
  | [], _ => none
  | p :: t, k => if p.1 == k then some p.2 else alookup t k

/-- Remove the entry of a key, mirroring `Map.delete`. -/
def adel {α β : Type} [BEq α] : List (α × β) → α → List (α × β)
  | [], _ => []
  | p :: t, k => if p.1 == k then t else p :: adel t k

/-- Insert or overwrite the entry of a key, mirroring `Map.set`. -/
def aset {α β : Type} [BEq α] : List (α × β) → α → β → List (α × β)
  | [], k, v => [(k, v)]
  | p :: t, k, v => if p.1 == k then (k, v) :: t else p :: aset t k v

/-- Replace the session object stored at a handle. -/
def hupd (l : List (Nat × SessionState)) (h : Nat) (ns : SessionState) :
    List (Nat × SessionState) :=
  l.map (fun p => if p.1 == h then (p.1, ns) else p)

/-- Outcome with which a command's promise settles. -/
inductive Outcome where
  | resolved (v : Option JValue)
  | rejected (msg : String)

/-- Observable events of a step: a serialized command handed to
`transport.send` (kept structured), the registration of a pending
command (creation of the promise `sendOrDie` returns), a settlement of
that promise, an immediate rejection returned by `sendOrDie` on a closed
session, an event emission, and the `Disconnected` emission. -/
inductive Ev where
  | sent (id : Nat) (method : String) (sessionId : Option String) (params : JValue)
  | issued (h : Nat) (id : Nat) (method : String)
  | settled (id : Nat) (o : Outcome)
  | settledImmediate (method : String) (msg : String)
  | emitted (h : Nat) (method : Option String) (params : Option JValue)
  | disconnected (h : Nat)

/-- Key used by `Connection._onMessage`: `object.sessionId || ''`. -/
def sessionKey (o : InboundMessage) : String := (o.sessionId).getD ""

/-- Message written into the call-site token for a server-reported error
(lines 154-156): note the source interpolates `object.method` — the
method field of the *reply* — and, the error being present, always
appends its serialization. -/
def protoErrMsg (o : InboundMessage) (e : ProtocolError) : String :=
  "Protocol error (" ++ renderOptStr o.method ++ "): " ++ e.message ++
    " - " ++ serializeError e

/-- `CDPSession._onMessage` (lines 149-166).  `object.id &&
this._callbacks.has(object.id)` is a truthiness test: an `id` of `0`
falls through to the event branch, as does an absent one.  An unmatched
truthy id throws the bare `new Error()` of line 163 (empty message). -/
def sessionOnMessage (s : ConnState) (h : Nat) (o : InboundMessage) :
    Except String (ConnState × List Ev) :=
  match alookup s.sessions h with
  | none => Except.ok (s, [])
  | some sess =>
    match o.id with
    | some n =>
      if n ≠ 0 then
        match alookup sess.callbacks n with
        | some _ =>
          let sess' := { sess with callbacks := adel sess.callbacks n }
          let s' := { s with sessions := hupd s.sessions h sess' }
          match o.error with
          | some err => Except.ok (s', [Ev.settled n (Outcome.rejected (protoErrMsg o err))])
          | none => Except.ok (s', [Ev.settled n (Outcome.resolved o.result)])
        | none => Except.error ""
      else
        Except.ok (s, [Ev.emitted h o.method o.params])
    | none =>
      Except.ok (s, [Ev.emitted h o.method o.params])

/-- `Connection._onMessage` (lines 81-90): look the session up under
`object.sessionId || ''` and forward, or throw naming the offending
identifier. -/
def connOnMessage (s : ConnState) (o : InboundMessage) :
    Except String (ConnState × List Ev) :=
  match alookup s.registry (sessionKey o) with
  | some h => sessionOnMessage s h o
  | none => Except.error ("Unknown session id: " ++ renderOptStr o.sessionId)

/-- `CDPSession.sendOrDie` (lines 140-147) together with the
`Connection._send` it calls (lines 70-79): reject immediately when
`_connection` is gone; otherwise allocate `++this._lastId`, hand the
serialized command (with `sessionId` omitted when falsy) to the
transport, and register the callback entry. -/
def sendOrDieF (s : ConnState) (h : Nat) (method : String) (params : JValue) :
    ConnState × List Ev :=
  match alookup s.sessions h with
  | none => (s, [])
  | some sess =>
    if sess.connected then
      let id := s.lastId + 1
      let sess' := { sess with callbacks := aset sess.callbacks id { method := method } }
      let s1 := { s with lastId := id, sessions := hupd s.sessions h sess' }
      (s1, [Ev.sent id method (if sess.sessionId == "" then none else some sess.sessionId) params,
            Ev.issued h id method])
    else
      (s, [Ev.settledImmediate method
        ("Protocol error (" ++ method ++ "): Session closed. Most likely the target has been closed.")])

/-- `CDPSession.send` (lines 136-138) is `sendOrDie(...).catch(e => null)`;
this is the transformation `.catch(e => null)` applies to the strict
variant's settlement. -/
def catchToNull : Outcome → Outcome
  | Outcome.rejected _ => Outcome.resolved none
  | Outcome.resolved v => Outcome.resolved v

/-- `CDPSession._onClose` (lines 183-191): reject every pending command
with the `Target closed.` template, clear `_callbacks`, clear
`_connection`, emit `Disconnected`. -/
def closeSession (s : ConnState) (h : Nat) : ConnState × List Ev :=
  match alookup s.sessions h with
  | none => (s, [])
  | some sess =>
    let sess' := { sess with callbacks := [], connected := false }
    ({ s with sessions := hupd s.sessions h sess' },
     sess.callbacks.map (fun p =>
        Ev.settled p.1 (Outcome.rejected
          ("Protocol error (" ++ p.2.method ++ "): Target closed."))) ++
       [Ev.disconnected h])

/-- The loop of `Connection._onTransportClose` over
`this._sessions.values()` (`_onClose` never touches the registry, so
iterating a snapshot of it is faithful). -/
def closeAll : ConnState → List (String × Nat) → ConnState × List Ev
  | s, [] => (s, [])
  | s, p :: t =>
    let r1 := closeSession s p.2
    let r2 := closeAll r1.1 t
    (r2.1, r1.2 ++ r2.2)

/-- `Connection._onTransportClose` (lines 92-101): no-op when already
closed; otherwise mark closed (which also stands for the nulled
transport handlers), close every registered session, clear the
registry.  `Connection.dispose` (lines 103-106) runs exactly this and
then closes the transport. -/
def connTransportClose (s : ConnState) : ConnState × List Ev :=
  if s.closed then (s, [])
  else
    let s0 := { s with closed := true }
    let r := closeAll s0 s.registry
    ({ r.1 with registry := [] }, r.2)

/-- `Connection.createSession` (lines 108-112): make a fresh session
object bound to this connection and `Map.set` it into the registry,
returning its handle. -/
def createSessionF (s : ConnState) (sid : String) : Nat × ConnState :=
  let h := s.nextHandle
  (h, { s with
    sessions := s.sessions ++ [(h, { sessionId := sid, connected := true, callbacks := [] })]
    registry := aset s.registry sid h
    nextHandle := h + 1 })

/-- `CDPSession.dispose` (lines 168-171) with `Connection._disposeSession`
(lines 114-117): when still connected, run `_onClose` and delete the
registry entry stored under this session's identifier. -/
def sessionDispose (s : ConnState) (h : Nat) : ConnState × List Ev :=
  match alookup s.sessions h with
  | none => (s, [])
  | some sess =>
    if sess.connected then
      let r := closeSession s h
      ({ r.1 with registry := adel r.1.registry sess.sessionId }, r.2)
    else (s, [])

/-- `CDPSession.detach` (lines 173-177): throw when already detached,
else send `Target.detachFromTarget` through `_send` — allocating an id
but registering no callback. -/
def sessionDetach (s : ConnState) (h : Nat) : Except String (ConnState × List Ev) :=
  match alookup s.sessions h with
  | none => Except.ok (s, [])
  | some sess =>
    if sess.connected then
      let id := s.lastId + 1
      Except.ok ({ s with lastId := id },
        [Ev.sent id "Target.detachFromTarget"
          (if sess.sessionId == "" then none else some sess.sessionId) (JValue.obj [])])
    else
      Except.error "Session already detached. Most likely the target has been closed."

/-- One interaction with the connection: an API call on a session object
(referenced by handle) or an activity of the transport. -/
inductive Step where
  | sendOrDie (h : Nat) (method : String) (params : JValue)
  | deliver (o : InboundMessage)
  | createSession (sid : String)
  | disposeSession (h : Nat)
  | transportClose
  | dispose
  | detach (h : Nat)

/-- Execute one step.  After `_onTransportClose` the transport handlers
are nulled, so a delivery on a closed connection does nothing.  Steps
that throw leave the state unchanged (every throw in the source happens
before any mutation). -/
def step (s : ConnState) : Step → ConnState × List Ev
  | Step.sendOrDie h m p => sendOrDieF s h m p
  | Step.deliver o =>
    if s.closed then (s, [])
    else
      match connOnMessage s o with
      | Except.ok r => r
      | Except.error _ => (s, [])
  | Step.createSession sid => ((createSessionF s sid).2, [])
  | Step.disposeSession h => sessionDispose s h
  | Step.transportClose => connTransportClose s
  | Step.dispose => connTransportClose s
  | Step.detach h =>
    match sessionDetach s h with
    | Except.ok r => r
    | Except.error _ => (s, [])

/-- Fold a step sequence, accumulating events. -/
def runAux : ConnState → List Ev → List Step → ConnState × List Ev
  | s, evs, [] => (s, evs)
  | s, evs, st :: tr => runAux (step s st).1 (evs ++ (step s st).2) tr

/-- Run a trace from a freshly constructed connection. -/
def run (tr : List Step) : ConnState × List Ev := runAux initConn [] tr

/-- Number of `issued` events for a given command id. -/
def countIssued (evs : List Ev) (id : Nat) : Nat :=
  evs.countP (fun e => match e with | Ev.issued _ i _ => i == id | _ => false)

/-- Number of `settled` events for a given command id. -/
def countSettled (evs : List Ev) (id : Nat) : Nat :=
  evs.countP (fun e => match e with | Ev.settled i _ => i == id | _ => false)

/-- Command identifiers handed to the transport, in emission order. -/
def sentIds (evs : List Ev) : List Nat :=
  evs.filterMap (fun e => match e with | Ev.sent i _ _ _ => some i | _ => none)

/-- Occurrences of a command id among a session's callback entries. -/
def cbCount (cbs : List (Nat × ProtocolCallback)) (id : Nat) : Nat :=
  cbs.countP (fun p => p.1 == id)

/-- Pending occurrences of a command id across every session object. -/
def pendingCount (s : ConnState) (id : Nat) : Nat :=
  (s.sessions.map (fun p => cbCount p.2.callbacks id)).sum

/-- The caller-side discipline `createSession` documents: it is invoked
only while the connection is open and only with an identifier that is
not currently registered. -/
def wfStep (s : ConnState) : Step → Bool
  | Step.createSession sid => !s.closed && (alookup s.registry sid).isNone
  | _ => true

/-- A trace respecting the `createSession` uniqueness discipline. -/
def wfRun (s : ConnState) : List Step → Bool
  | [] => true
  | st :: tr => wfStep s st && wfRun (step s st).1 tr

/-- Contribution of one event to `countIssued`. -/
def evIssuedCt (e : Ev) (id : Nat) : Nat :=
  match e with | Ev.issued _ i _ => if i == id then 1 else 0 | _ => 0

/-- Contribution of one event to `countSettled`. -/
def evSettledCt (e : Ev) (id : Nat) : Nat :=
  match e with | Ev.settled i _ => if i == id then 1 else 0 | _ => 0

/-- List-level form of `pendingCount`. -/
def pendSum (l : List (Nat × SessionState)) (id : Nat) : Nat :=
  (l.map (fun p => cbCount p.2.callbacks id)).sum

/-- Bookkeeping invariant tying the events of a trace to the state:
every id registered by `sendOrDie` is accounted for exactly once, as a
settlement event or as a live callback entry. -/
def acct (s : ConnState) (evs : List Ev) : Prop :=
  ∀ id, countIssued evs id = countSettled evs id + pendingCount s id

/-- Registered ids never exceed the allocator's `_lastId`. -/
def idsBound (s : ConnState) (evs : List Ev) : Prop :=
  ∀ id, countIssued evs id ≠ 0 → id ≤ s.lastId

/-- No command id is ever registered twice. -/
def onceIssued (evs : List Ev) : Prop :=
  ∀ id, countIssued evs id ≤ 1

/-- The session heap has no duplicate handles. -/
def heapNodup (s : ConnState) : Prop := (s.sessions.map Prod.fst).Nodup

/-- Every allocated handle is below the allocation counter. -/
def handleBound (s : ConnState) : Prop :=
  ∀ p ∈ s.sessions, p.1 < s.nextHandle

/-- Invariant preserved by every step, discipline or not. -/
def INV0 (s : ConnState) (evs : List Ev) : Prop :=
  acct s evs ∧ idsBound s evs ∧ onceIssued evs ∧ heapNodup s ∧ handleBound s

/-- Registry entries point at live, connected sessions carrying the
registered identifier. -/
def regOk (s : ConnState) : Prop :=
  ∀ sid h, alookup s.registry sid = some h →
    ∃ sess, alookup s.sessions h = some sess ∧ sess.sessionId = sid ∧ sess.connected = true

/-- Every connected session is reachable through the registry under its
own identifier, and only while the connection is open. -/
def sessReg (s : ConnState) : Prop :=
  ∀ h sess, alookup s.sessions h = some sess → sess.connected = true →
    s.closed = false ∧ alookup s.registry sess.sessionId = some h

/-- A session whose connection reference was cleared has no pending
commands left. -/
def discEmpty (s : ConnState) : Prop :=
  ∀ h sess, alookup s.sessions h = some sess → sess.connected = false →
    sess.callbacks = []

/-- The registry has no duplicate identifiers. -/
def regNodup (s : ConnState) : Prop := (s.registry.map Prod.fst).Nodup

/-- Invariant preserved by every discipline-respecting step. -/
def INV (s : ConnState) (evs : List Ev) : Prop :=
  INV0 s evs ∧ regOk s ∧ sessReg s ∧ discEmpty s ∧ regNodup s

/-! ### Concrete fixtures used to instantiate the theorems -/

/-- Trace of the duplicate-`createSession` leak: a child session under
identifier `A` sends `Debugger.enable` (command id 1), a second
`createSession "A"` displaces it from the registry, and the connection
is disposed. -/
def trCE : List Step :=
  [Step.createSession "A", Step.sendOrDie 1 "Debugger.enable" (JValue.obj []),
   Step.createSession "A", Step.dispose]

/-- Well-behaved trace: the root session sends one command and the
connection is disposed with the command outstanding. -/
def trW : List Step :=
  [Step.sendOrDie 0 "Target.getTargets" (JValue.obj []), Step.dispose]

/-- Trace building scenario B: child session `A1` sends
`Debugger.enable` strictly and no reply arrives. -/
def trB : List Step :=
  [Step.createSession "A1", Step.sendOrDie 1 "Debugger.enable" (JValue.obj [])]

/-- State of scenario B before closure. -/
def sB : ConnState := (run trB).1

/-- The session object of scenario B (handle 1). -/
def sessB : SessionState :=
  { sessionId := "A1", connected := true, callbacks := [(1, { method := "Debugger.enable" })] }

/-- State with one pending root command `Debugger.enable` (id 1). -/
def sC2 : ConnState := (run [Step.sendOrDie 0 "Debugger.enable" (JValue.obj [])]).1

/-- A reply to command 1 carrying a structured error and, as CDP replies
do, no `method` field. -/
def msgC2 : InboundMessage :=
  { id := some 1, method := none, params := none, result := none,
    error := some { message := "nope", data := none }, sessionId := none }

/-- An inbound message tagged with the never-registered identifier
`ghost` (scenario D). -/
def msgGhost : InboundMessage :=
  { id := none, method := some "Debugger.paused", params := none, result := none,
    error := none, sessionId := some "ghost" }

/-- Scenario C event: `Debugger.paused` with no identifier. -/
def msgEvt : InboundMessage :=
  { id := none, method := some "Debugger.paused",
    params := some (JValue.obj [("reason", JValue.str "other")]), result := none,
    error := none, sessionId := none }

/-- A message carrying the identifier `0` — truthy-falsy in JS — and no
matching pending command. -/
def msgZero : InboundMessage :=
  { id := some 0, method := some "Debugger.paused",
    params := some (JValue.obj [("reason", JValue.str "other")]), result := none,
    error := none, sessionId := none }

/-- A message carrying the unmatched identifier `5`. -/
def msgFive : InboundMessage :=
  { id := some 5, method := some "Debugger.paused", params := none, result := none,
    error := none, sessionId := none }

/-- State after disposing a fresh connection: the root session is closed. -/
def sD : ConnState := (run [Step.dispose]).1

/-- The root session object after closure. -/
def rootClosedSess : SessionState :=
  { sessionId := "", connected := false, callbacks := [] }

/-- State with one child session registered under `A` (handle 1). -/
def sA : ConnState := (run [Step.createSession "A"]).1

/-- The child session object of `sA`. -/
def sessA : SessionState := { sessionId := "A", connected := true, callbacks := [] }

/-! ### Association-list lemmas -/

theorem alookup_append_some {α β : Type} [BEq α] {l m : List (α × β)} {k : α} {v : β}
    (h : alookup l k = some v) : alookup (l ++ m) k = some v := by
  induction l with
  | nil => simp [alookup] at h
  | cons p t ih =>
    simp only [alookup, List.cons_append] at *
    by_cases hb : (p.1 == k) = true
    · simpa [hb] using h
    · simp only [hb, if_false] at h ⊢
      exact ih h

theorem alookup_append_none {α β : Type} [BEq α] {l : List (α × β)} {k : α}
    (h : alookup l k = none) (m : List (α × β)) : alookup (l ++ m) k = alookup m k := by
  induction l with
  | nil => simp [alookup]
  | cons p t ih =>
    simp only [alookup, List.cons_append] at *
    by_cases hb : (p.1 == k) = true
    · simp [hb] at h
    · simp only [hb, if_false] at h ⊢
      exact ih h

theorem alookup_none_not_mem {α β : Type} [BEq α] [LawfulBEq α] {l : List (α × β)} {k : α}
    (h : alookup l k = none) : k ∉ l.map Prod.fst := by
  induction l with
  | nil => simp
  | cons p t ih =>
    simp only [alookup] at h
    by_cases hb : (p.1 == k) = true
    · simp [hb] at h
    · simp only [hb, if_false] at h
      simp only [List.map_cons, List.mem_cons]
      rintro (rfl | hm)
      · simp at hb
      · exact ih h hm

theorem not_mem_alookup_none {α β : Type} [BEq α] [LawfulBEq α] {l : List (α × β)} {k : α}
    (h : k ∉ l.map Prod.fst) : alookup l k = none := by
  induction l with
  | nil => rfl
  | cons p t ih =>
    simp only [List.map_cons, List.mem_cons] at h
    push_neg at h
    simp only [alookup]
    have : (p.1 == k) = false := by
      simp only [beq_eq_false_iff_ne]
      exact fun e => h.1 e.symm
    simp only [this, if_false]
    exact ih h.2

theorem aset_of_none {α β : Type} [BEq α] {l : List (α × β)} {k : α}
    (h : alookup l k = none) (v : β) : aset l k v = l ++ [(k, v)] := by
  induction l with
  | nil => rfl
  | cons p t ih =>
    simp only [alookup] at h
    cases hb : p.1 == k with
    | true => simp [hb] at h
    | false =>
      simp only [hb] at h
      simp only [aset, hb, Bool.false_eq_true, if_false, List.cons_append,
        List.cons.injEq, true_and]
      exact ih h

theorem alookup_adel_ne {α β : Type} [BEq α] [LawfulBEq α] {l : List (α × β)} {k k' : α}
    (h : k' ≠ k) : alookup (adel l k) k' = alookup l k' := by
  induction l with
  | nil => rfl
  | cons p t ih =>
    simp only [adel, alookup]
    by_cases hb : (p.1 == k) = true
    · have : (p.1 == k') = false := by
        simp only [beq_eq_false_iff_ne]
        intro e
        exact h (e.symm.trans (by simpa using hb))
      simp [hb, this, alookup]
    · simp [hb, alookup, ih]

theorem adel_sublist {α β : Type} [BEq α] (l : List (α × β)) (k : α) :
    (adel l k).Sublist l := by
  induction l with
  | nil => simp [adel]
  | cons p t ih =>
    simp only [adel]
    by_cases hb : (p.1 == k) = true
    · simp [hb]
    · simp only [hb, if_false]
      exact ih.cons₂ p

theorem nodup_keys_adel {α β : Type} [BEq α] {l : List (α × β)} {k : α}
    (h : (l.map Prod.fst).Nodup) : ((adel l k).map Prod.fst).Nodup :=
  ((adel_sublist l k).map Prod.fst).nodup h

theorem alookup_adel_self {α β : Type} [BEq α] [LawfulBEq α] {l : List (α × β)} {k : α}
    (h : (l.map Prod.fst).Nodup) : alookup (adel l k) k = none := by
  induction l with
  | nil => rfl
  | cons p t ih =>
    simp only [List.map_cons, List.nodup_cons] at h
    simp only [adel]
    cases hb : p.1 == k with
    | true =>
      have hk : p.1 = k := by simpa using hb
      simp only [if_true]
      exact hk ▸ not_mem_alookup_none h.1
    | false =>
      simp only [Bool.false_eq_true, if_false, alookup, hb]
      exact ih h.2

theorem alookup_some_mem {α β : Type} [BEq α] [LawfulBEq α] {l : List (α × β)} {k : α} {v : β}
    (h : alookup l k = some v) : (k, v) ∈ l := by
  induction l with
  | nil => simp [alookup] at h
  | cons p t ih =>
    simp only [alookup] at h
    cases hb : p.1 == k with
    | true =>
      have hk : p.1 = k := by simpa using hb
      simp only [hb, if_true, Option.some.injEq] at h
      have : p = (k, v) := by
        cases p
        simp only [Prod.mk.injEq]
        exact ⟨hk, h⟩
      rw [← this]
      exact List.mem_cons_self p t
    | false =>
      simp only [hb, Bool.false_eq_true, if_false] at h
      exact List.mem_cons_of_mem p (ih h)

theorem mem_alookup {α β : Type} [BEq α] [LawfulBEq α] {l : List (α × β)} {k : α} {v : β}
    (hn : (l.map Prod.fst).Nodup) (hm : (k, v) ∈ l) : alookup l k = some v := by
  induction l with
  | nil => simp at hm
  | cons p t ih =>
    simp only [List.map_cons, List.nodup_cons] at hn
    simp only [List.mem_cons] at hm
    simp only [alookup]
    rcases hm with rfl | hm
    · simp
    · have hne : (p.1 == k) = false := by
        simp only [beq_eq_false_iff_ne]
        rintro rfl
        exact hn.1 (List.mem_map.mpr ⟨(p.1, v), hm, rfl⟩)
      simp only [hne, Bool.false_eq_true, if_false]
      exact ih hn.2 hm

/-! ### Heap-update and counting lemmas -/

theorem hupd_cons_self {p : Nat × SessionState} {t : List (Nat × SessionState)} {h : Nat}
    (hb : (p.1 == h) = true) (ns : SessionState) :
    hupd (p :: t) h ns = (p.1, ns) :: hupd t h ns := by
  show (if (p.1 == h) = true then (p.1, ns) else p) :: hupd t h ns = _
  rw [if_pos hb]

theorem hupd_cons_ne {p : Nat × SessionState} {t : List (Nat × SessionState)} {h : Nat}
    (hb : (p.1 == h) = false) (ns : SessionState) :
    hupd (p :: t) h ns = p :: hupd t h ns := by
  show (if (p.1 == h) = true then (p.1, ns) else p) :: hupd t h ns = _
  rw [if_neg (by simp [hb])]

theorem alookup_cons_self {α β : Type} [BEq α] {p : α × β} {t : List (α × β)} {k : α}
    (hb : (p.1 == k) = true) : alookup (p :: t) k = some p.2 := by
  show (if (p.1 == k) = true then some p.2 else alookup t k) = some p.2
  rw [if_pos hb]

theorem alookup_cons_ne {α β : Type} [BEq α] {p : α × β} {t : List (α × β)} {k : α}
    (hb : (p.1 == k) = false) : alookup (p :: t) k = alookup t k := by
  show (if (p.1 == k) = true then some p.2 else alookup t k) = alookup t k
  rw [if_neg (by simp [hb])]

theorem alookup_pair_self {α β : Type} [BEq α] {a : α} {k : α} (b : β) (t : List (α × β))
    (hb : (a == k) = true) : alookup ((a, b) :: t) k = some b := by
  show (if (a == k) = true then some b else alookup t k) = some b
  rw [if_pos hb]

theorem alookup_pair_ne {α β : Type} [BEq α] {a : α} {k : α} (b : β) (t : List (α × β))
    (hb : (a == k) = false) : alookup ((a, b) :: t) k = alookup t k := by
  show (if (a == k) = true then some b else alookup t k) = alookup t k
  rw [if_neg (by simp [hb])]

theorem pendSum_cons (p : Nat × SessionState) (t : List (Nat × SessionState)) (id : Nat) :
    pendSum (p :: t) id = cbCount p.2.callbacks id + pendSum t id := by
  simp [pendSum]

theorem hupd_keys (l : List (Nat × SessionState)) (h : Nat) (ns : SessionState) :
    (hupd l h ns).map Prod.fst = l.map Prod.fst := by
  induction l with
  | nil => rfl
  | cons p t ih =>
    cases hb : p.1 == h with
    | true => rw [hupd_cons_self hb, List.map_cons, List.map_cons, ih]
    | false => rw [hupd_cons_ne hb, List.map_cons, List.map_cons, ih]

theorem hupd_of_not_mem {l : List (Nat × SessionState)} {h : Nat}
    (hm : h ∉ l.map Prod.fst) (ns : SessionState) : hupd l h ns = l := by
  induction l with
  | nil => rfl
  | cons p t ih =>
    simp only [List.map_cons, List.mem_cons] at hm
    push_neg at hm
    have hb : (p.1 == h) = false := by
      simp only [beq_eq_false_iff_ne]
      exact fun e => hm.1 e.symm
    rw [hupd_cons_ne hb, ih hm.2]

theorem alookup_hupd_self {l : List (Nat × SessionState)} {h : Nat} {sess : SessionState}
    (hl : alookup l h = some sess) (ns : SessionState) :
    alookup (hupd l h ns) h = some ns := by
  induction l with
  | nil => simp [alookup] at hl
  | cons p t ih =>
    cases hb : p.1 == h with
    | true => rw [hupd_cons_self hb, alookup_pair_self ns (hupd t h ns) hb]
    | false =>
      rw [alookup_cons_ne hb] at hl
      rw [hupd_cons_ne hb, alookup_cons_ne hb]
      exact ih hl

theorem alookup_hupd_ne {l : List (Nat × SessionState)} {h h' : Nat}
    (hne : h' ≠ h) (ns : SessionState) : alookup (hupd l h ns) h' = alookup l h' := by
  induction l with
  | nil => rfl
  | cons p t ih =>
    cases hb : p.1 == h with
    | true =>
      have hp : p.1 = h := by simpa using hb
      have hb' : (p.1 == h') = false := by
        simp only [beq_eq_false_iff_ne, hp]
        exact fun e => hne e.symm
      rw [hupd_cons_self hb, alookup_pair_ne ns (hupd t h ns) hb', alookup_cons_ne hb', ih]
    | false =>
      rw [hupd_cons_ne hb]
      cases hb' : p.1 == h' with
      | true => rw [alookup_cons_self hb', alookup_cons_self hb']
      | false => rw [alookup_cons_ne hb', alookup_cons_ne hb', ih]

theorem cbCount_nil (id : Nat) : cbCount [] id = 0 := rfl

theorem cbCount_append (a b : List (Nat × ProtocolCallback)) (id : Nat) :
    cbCount (a ++ b) id = cbCount a id + cbCount b id := by
  simp [cbCount, List.countP_append]

theorem alookup_none_cbCount {cbs : List (Nat × ProtocolCallback)} {id : Nat}
    (h : alookup cbs id = none) : cbCount cbs id = 0 := by
  induction cbs with
  | nil => rfl
  | cons p t ih =>
    simp only [alookup] at h
    cases hb : p.1 == id with
    | true => simp [hb] at h
    | false =>
      simp only [hb, Bool.false_eq_true, if_false] at h
      simp only [cbCount, List.countP_cons, hb, if_false]
      simpa [cbCount] using ih h

theorem cbCount_adel_self {cbs : List (Nat × ProtocolCallback)} {id : Nat} {cb : ProtocolCallback}
    (h : alookup cbs id = some cb) : cbCount (adel cbs id) id + 1 = cbCount cbs id := by
  induction cbs with
  | nil => simp [alookup] at h
  | cons p t ih =>
    simp only [alookup, adel] at *
    cases hb : p.1 == id with
    | true => simp [hb, cbCount, List.countP_cons]
    | false =>
      simp only [hb, Bool.false_eq_true, if_false] at h ⊢
      simp only [cbCount, List.countP_cons, hb, if_false]
      have := ih h
      simp only [cbCount] at this
      omega

theorem cbCount_adel_ne {cbs : List (Nat × ProtocolCallback)} {id id' : Nat}
    (h : id' ≠ id) : cbCount (adel cbs id) id' = cbCount cbs id' := by
  induction cbs with
  | nil => rfl
  | cons p t ih =>
    simp only [adel]
    cases hb : p.1 == id with
    | true =>
      have hp : p.1 = id := by simpa using hb
      have : (p.1 == id') = false := by
        simp only [beq_eq_false_iff_ne, hp]
        exact fun e => h e.symm
      simp [cbCount, List.countP_cons, this]
    | false =>
      simp only [Bool.false_eq_true, if_false]
      have ih' := ih
      simp only [cbCount] at ih'
      simp only [cbCount, List.countP_cons, ih']

theorem pendSum_nil (id : Nat) : pendSum [] id = 0 := rfl

theorem pendSum_append (a b : List (Nat × SessionState)) (id : Nat) :
    pendSum (a ++ b) id = pendSum a id + pendSum b id := by
  simp [pendSum]

theorem pendSum_eq_zero {l : List (Nat × SessionState)} {id : Nat}
    (h : ∀ p ∈ l, p.2.callbacks = []) : pendSum l id = 0 := by
  induction l with
  | nil => rfl
  | cons p t ih =>
    have hp := h p (List.mem_cons_self p t)
    simp only [pendSum, List.map_cons, List.sum_cons, hp, cbCount_nil]
    simpa [pendSum] using ih (fun q hq => h q (List.mem_cons_of_mem p hq))

theorem pend_split {l : List (Nat × SessionState)} {h : Nat} {sess : SessionState}
    (hn : (l.map Prod.fst).Nodup) (hl : alookup l h = some sess)
    (ns : SessionState) (id : Nat) :
    ∃ rest, pendSum l id = cbCount sess.callbacks id + rest ∧
      pendSum (hupd l h ns) id = cbCount ns.callbacks id + rest := by
  induction l with
  | nil => simp [alookup] at hl
  | cons p t ih =>
    simp only [List.map_cons, List.nodup_cons] at hn
    simp only [alookup] at hl
    cases hb : p.1 == h with
    | true =>
      have hp : p.1 = h := by simpa using hb
      simp only [hb, if_true, Option.some.injEq] at hl
      refine ⟨pendSum t id, ?_, ?_⟩
      · rw [pendSum_cons, hl]
      · have ht : hupd t h ns = t := hupd_of_not_mem (hp ▸ hn.1) ns
        rw [hupd_cons_self hb, pendSum_cons, ht]
    | false =>
      simp only [hb, Bool.false_eq_true, if_false] at hl
      obtain ⟨rest, h1, h2⟩ := ih hn.2 hl
      refine ⟨cbCount p.2.callbacks id + rest, ?_, ?_⟩
      · rw [pendSum_cons, h1]
        omega
      · rw [hupd_cons_ne hb, pendSum_cons, h2]
        omega

/-! ### Event-count lemmas -/

theorem countIssued_nil (id : Nat) : countIssued [] id = 0 := rfl

theorem countSettled_nil (id : Nat) : countSettled [] id = 0 := rfl

theorem sentIds_nil : sentIds [] = [] := rfl

theorem countIssued_append (a b : List Ev) (id : Nat) :
    countIssued (a ++ b) id = countIssued a id + countIssued b id := by
  simp [countIssued, List.countP_append]

theorem countSettled_append (a b : List Ev) (id : Nat) :
    countSettled (a ++ b) id = countSettled a id + countSettled b id := by
  simp [countSettled, List.countP_append]

theorem sentIds_append (a b : List Ev) : sentIds (a ++ b) = sentIds a ++ sentIds b := by
  simp [sentIds]

theorem countIssued_cons (e : Ev) (evs : List Ev) (id : Nat) :
    countIssued (e :: evs) id = countIssued evs id + evIssuedCt e id := by
  cases e <;> simp [countIssued, evIssuedCt, List.countP_cons]

theorem countSettled_cons (e : Ev) (evs : List Ev) (id : Nat) :
    countSettled (e :: evs) id = countSettled evs id + evSettledCt e id := by
  cases e <;> simp [countSettled, evSettledCt, List.countP_cons]

theorem countSettled_rejectMap (cbs : List (Nat × ProtocolCallback))
    (f : Nat × ProtocolCallback → String) (id : Nat) :
    countSettled (cbs.map (fun p => Ev.settled p.1 (Outcome.rejected (f p)))) id =
      cbCount cbs id := by
  induction cbs with
  | nil => rfl
  | cons p t ih =>
    rw [List.map_cons, countSettled_cons, ih]
    simp only [evSettledCt, cbCount, List.countP_cons]

theorem countIssued_rejectMap (cbs : List (Nat × ProtocolCallback))
    (f : Nat × ProtocolCallback → String) (id : Nat) :
    countIssued (cbs.map (fun p => Ev.settled p.1 (Outcome.rejected (f p)))) id = 0 := by
  induction cbs with
  | nil => rfl
  | cons p t ih => simp [countIssued_cons, evIssuedCt, ih]

theorem sentIds_rejectMap (cbs : List (Nat × ProtocolCallback))
    (f : Nat × ProtocolCallback → String) :
    sentIds (cbs.map (fun p => Ev.settled p.1 (Outcome.rejected (f p)))) = [] := by
  induction cbs with
  | nil => rfl
  | cons p t ih => exact ih

/-! ### Effects of session closure -/

theorem pendingCount_eq_pendSum (s : ConnState) (id : Nat) :
    pendingCount s id = pendSum s.sessions id := rfl

theorem closeSession_none {s : ConnState} {h : Nat}
    (hl : alookup s.sessions h = none) : closeSession s h = (s, []) := by
  simp [closeSession, hl]

theorem closeSession_found {s : ConnState} {h : Nat} {sess : SessionState}
    (hl : alookup s.sessions h = some sess) :
    closeSession s h =
      ({ s with sessions := hupd s.sessions h { sess with callbacks := [], connected := false } },
       sess.callbacks.map (fun p =>
         Ev.settled p.1 (Outcome.rejected
           ("Protocol error (" ++ p.2.method ++ "): Target closed."))) ++
         [Ev.disconnected h]) := by
  simp [closeSession, hl]

theorem closeSession_heapNodup (s : ConnState) (h : Nat) (hN : heapNodup s) :
    heapNodup (closeSession s h).1 := by
  cases hl : alookup s.sessions h with
  | none => rw [closeSession_none hl]; exact hN
  | some sess =>
    rw [closeSession_found hl]
    show ((hupd s.sessions h _).map Prod.fst).Nodup
    rw [hupd_keys]
    exact hN

theorem heapNodup_hupd (s : ConnState) (h : Nat) (ns : SessionState) (hN : heapNodup s) :
    ((hupd s.sessions h ns).map Prod.fst).Nodup := by
  rw [hupd_keys]
  exact hN

theorem closeEvs_issued (cbs : List (Nat × ProtocolCallback)) (h : Nat) (id : Nat) :
    countIssued (cbs.map (fun p =>
      Ev.settled p.1 (Outcome.rejected
        ("Protocol error (" ++ p.2.method ++ "): Target closed."))) ++
      [Ev.disconnected h]) id = 0 := by
  rw [countIssued_append, countIssued_rejectMap]
  rfl

theorem closeEvs_sent (cbs : List (Nat × ProtocolCallback)) (h : Nat) :
    sentIds (cbs.map (fun p =>
      Ev.settled p.1 (Outcome.rejected
        ("Protocol error (" ++ p.2.method ++ "): Target closed."))) ++
      [Ev.disconnected h]) = [] := by
  rw [sentIds_append, sentIds_rejectMap]
  rfl

theorem closeSession_acct {s : ConnState} {evs : List Ev} (h : Nat)
    (hA : acct s evs) (hN : heapNodup s) :
    acct (closeSession s h).1 (evs ++ (closeSession s h).2) ∧
    heapNodup (closeSession s h).1 ∧
    (closeSession s h).1.lastId = s.lastId ∧
    (closeSession s h).1.closed = s.closed ∧
    (closeSession s h).1.nextHandle = s.nextHandle ∧
    (closeSession s h).1.registry = s.registry ∧
    (∀ id, countIssued (closeSession s h).2 id = 0) ∧
    sentIds (closeSession s h).2 = [] := by
  cases hl : alookup s.sessions h with
  | none =>
    rw [closeSession_none hl]
    exact ⟨by simpa using hA, hN, rfl, rfl, rfl, rfl, fun _ => rfl, rfl⟩
  | some sess =>
    rw [closeSession_found hl]
    refine ⟨?_, ?_, rfl, rfl, rfl, rfl, ?_, ?_⟩
    · intro id
      obtain ⟨rest, h1, h2⟩ := pend_split hN hl { sess with callbacks := [], connected := false } id
      have hAid := hA id
      rw [pendingCount_eq_pendSum, h1] at hAid
      have h2' : pendingCount { s with sessions := hupd s.sessions h { sess with callbacks := [], connected := false } } id = rest := by
        rw [pendingCount_eq_pendSum]
        simpa [cbCount] using h2
      rw [countIssued_append, countSettled_append, countIssued_append, countSettled_append,
        countIssued_rejectMap, countSettled_rejectMap, h2']
      have hdis1 : countIssued [Ev.disconnected h] id = 0 := rfl
      have hdis2 : countSettled [Ev.disconnected h] id = 0 := rfl
      omega
    · exact heapNodup_hupd s h _ hN
    · exact fun id => closeEvs_issued sess.callbacks h id
    · exact closeEvs_sent sess.callbacks h

theorem closeSession_lookup_self {s : ConnState} {h : Nat} {sess : SessionState}
    (hl : alookup s.sessions h = some sess) :
    alookup (closeSession s h).1.sessions h =
      some { sess with callbacks := [], connected := false } := by
  rw [closeSession_found hl]
  exact alookup_hupd_self hl _

theorem closeSession_lookup_ne {s : ConnState} {h h' : Nat} (hne : h' ≠ h) :
    alookup (closeSession s h).1.sessions h' = alookup s.sessions h' := by
  cases hl : alookup s.sessions h with
  | none => rw [closeSession_none hl]
  | some sess =>
    rw [closeSession_found hl]
    exact alookup_hupd_ne hne _

theorem closeAll_effects (L : List (String × Nat)) (s : ConnState) (evs : List Ev)
    (hA : acct s evs) (hN : heapNodup s) :
    acct (closeAll s L).1 (evs ++ (closeAll s L).2) ∧
    heapNodup (closeAll s L).1 ∧
    (closeAll s L).1.lastId = s.lastId ∧
    (closeAll s L).1.closed = s.closed ∧
    (closeAll s L).1.nextHandle = s.nextHandle ∧
    (closeAll s L).1.registry = s.registry ∧
    (∀ id, countIssued (closeAll s L).2 id = 0) ∧
    sentIds (closeAll s L).2 = [] := by
  induction L generalizing s evs with
  | nil =>
    refine ⟨by simpa [closeAll] using hA, hN, rfl, rfl, rfl, rfl, fun _ => rfl, rfl⟩
  | cons q t ih =>
    obtain ⟨a1, n1, l1, c1, x1, r1, i1, s1⟩ := closeSession_acct q.2 hA hN
    obtain ⟨a2, n2, l2, c2, x2, r2, i2, s2⟩ :=
      ih (closeSession s q.2).1 (evs ++ (closeSession s q.2).2) a1 n1
    simp only [closeAll]
    rw [← List.append_assoc]
    refine ⟨a2, n2, l2.trans l1, c2.trans c1, x2.trans x1, r2.trans r1, ?_, ?_⟩
    · intro id
      rw [countIssued_append, i1 id, i2 id]
    · rw [sentIds_append, s1, s2]
      rfl

theorem closeAll_clears (L : List (String × Nat)) :
    ∀ (s : ConnState), heapNodup s →
    (∀ h sess, alookup s.sessions h = some sess →
      (sess.callbacks ≠ [] ∨ sess.connected = true) → h ∈ L.map Prod.snd) →
    ∀ h sess, alookup (closeAll s L).1.sessions h = some sess →
      sess.callbacks = [] ∧ sess.connected = false := by
  induction L with
  | nil =>
    intro s _ hpre h sess hl
    simp only [closeAll] at hl
    constructor
    · by_cases hc : sess.callbacks = []
      · exact hc
      · exact absurd (hpre h sess hl (Or.inl hc)) (by simp)
    · cases hcc : sess.connected with
      | false => rfl
      | true => exact absurd (hpre h sess hl (Or.inr hcc)) (by simp)
  | cons q t ih =>
    intro s hN hpre h sess hl
    simp only [closeAll] at hl
    refine ih (closeSession s q.2).1 (closeSession_heapNodup s q.2 hN) ?_ h sess hl
    intro h' sess' hl' hp'
    by_cases hh : h' = q.2
    · subst hh
      cases hl0 : alookup s.sessions q.2 with
      | none =>
        rw [closeSession_none hl0] at hl'
        rw [hl0] at hl'
        cases hl'
      | some sess0 =>
        rw [closeSession_lookup_self hl0] at hl'
        have hse : sess' = { sess0 with callbacks := [], connected := false } := by
          injection hl' with he
          exact he.symm
        rcases hp' with hp' | hp'
        · exact absurd (by rw [hse]) hp'
        · rw [hse] at hp'
          cases hp'
    · rw [closeSession_lookup_ne hh] at hl'
      have hm := hpre h' sess' hl' hp'
      simp only [List.map_cons, List.mem_cons] at hm
      rcases hm with rfl | hm
      · exact absurd rfl hh
      · exact hm

/-! ### Branch characterizations of the operations -/

theorem sendOrDieF_none {s : ConnState} {h : Nat} (m : String) (prm : JValue)
    (hl : alookup s.sessions h = none) : sendOrDieF s h m prm = (s, []) := by
  simp [sendOrDieF, hl]

theorem sendOrDieF_closed {s : ConnState} {h : Nat} {sess : SessionState} (m : String)
    (prm : JValue) (hl : alookup s.sessions h = some sess) (hc : sess.connected = false) :
    sendOrDieF s h m prm = (s, [Ev.settledImmediate m
      ("Protocol error (" ++ m ++ "): Session closed. Most likely the target has been closed.")]) := by
  simp [sendOrDieF, hl, hc]

theorem sendOrDieF_open {s : ConnState} {h : Nat} {sess : SessionState} (m : String)
    (prm : JValue) (hl : alookup s.sessions h = some sess) (hc : sess.connected = true) :
    sendOrDieF s h m prm = ({ s with lastId := s.lastId + 1, sessions := hupd s.sessions h { sess with callbacks := aset sess.callbacks (s.lastId + 1) { method := m } } }, [Ev.sent (s.lastId + 1) m (if sess.sessionId == "" then none else some sess.sessionId) prm, Ev.issued h (s.lastId + 1) m]) := by
  simp [sendOrDieF, hl, hc]

theorem sessionOnMessage_noHeap {s : ConnState} {h : Nat} (o : InboundMessage)
    (hl : alookup s.sessions h = none) : sessionOnMessage s h o = Except.ok (s, []) := by
  simp [sessionOnMessage, hl]

theorem sessionOnMessage_noId {s : ConnState} {h : Nat} {sess : SessionState}
    (o : InboundMessage) (hl : alookup s.sessions h = some sess) (hid : o.id = none) :
    sessionOnMessage s h o = Except.ok (s, [Ev.emitted h o.method o.params]) := by
  simp [sessionOnMessage, hl, hid]

theorem sessionOnMessage_zeroId {s : ConnState} {h : Nat} {sess : SessionState}
    (o : InboundMessage) (hl : alookup s.sessions h = some sess) (hid : o.id = some 0) :
    sessionOnMessage s h o = Except.ok (s, [Ev.emitted h o.method o.params]) := by
  simp [sessionOnMessage, hl, hid]

theorem sessionOnMessage_unmatched {s : ConnState} {h : Nat} {sess : SessionState} {n : Nat}
    (o : InboundMessage) (hl : alookup s.sessions h = some sess) (hid : o.id = some n)
    (hn : n ≠ 0) (hcb : alookup sess.callbacks n = none) :
    sessionOnMessage s h o = Except.error "" := by
  simp [sessionOnMessage, hl, hid, hn, hcb]

theorem sessionOnMessage_reject {s : ConnState} {h : Nat} {sess : SessionState} {n : Nat}
    {cb : ProtocolCallback} {err : ProtocolError} (o : InboundMessage)
    (hl : alookup s.sessions h = some sess) (hid : o.id = some n) (hn : n ≠ 0)
    (hcb : alookup sess.callbacks n = some cb) (herr : o.error = some err) :
    sessionOnMessage s h o = Except.ok ({ s with sessions := hupd s.sessions h { sess with callbacks := adel sess.callbacks n } }, [Ev.settled n (Outcome.rejected (protoErrMsg o err))]) := by
  simp [sessionOnMessage, hl, hid, hn, hcb, herr]

theorem sessionOnMessage_resolve {s : ConnState} {h : Nat} {sess : SessionState} {n : Nat}
    {cb : ProtocolCallback} (o : InboundMessage)
    (hl : alookup s.sessions h = some sess) (hid : o.id = some n) (hn : n ≠ 0)
    (hcb : alookup sess.callbacks n = some cb) (herr : o.error = none) :
    sessionOnMessage s h o = Except.ok ({ s with sessions := hupd s.sessions h { sess with callbacks := adel sess.callbacks n } }, [Ev.settled n (Outcome.resolved o.result)]) := by
  simp [sessionOnMessage, hl, hid, hn, hcb, herr]

theorem connOnMessage_found {s : ConnState} {h : Nat} (o : InboundMessage)
    (hr : alookup s.registry (sessionKey o) = some h) :
    connOnMessage s o = sessionOnMessage s h o := by
  simp [connOnMessage, hr]

theorem connOnMessage_unknown {s : ConnState} (o : InboundMessage)
    (hr : alookup s.registry (sessionKey o) = none) :
    connOnMessage s o = Except.error ("Unknown session id: " ++ renderOptStr o.sessionId) := by
  simp [connOnMessage, hr]

theorem sessionDispose_none {s : ConnState} {h : Nat}
    (hl : alookup s.sessions h = none) : sessionDispose s h = (s, []) := by
  simp [sessionDispose, hl]

theorem sessionDispose_closed {s : ConnState} {h : Nat} {sess : SessionState}
    (hl : alookup s.sessions h = some sess) (hc : sess.connected = false) :
    sessionDispose s h = (s, []) := by
  simp [sessionDispose, hl, hc]

theorem sessionDispose_open {s : ConnState} {h : Nat} {sess : SessionState}
    (hl : alookup s.sessions h = some sess) (hc : sess.connected = true) :
    sessionDispose s h = ({ (closeSession s h).1 with registry := adel (closeSession s h).1.registry sess.sessionId }, (closeSession s h).2) := by
  simp [sessionDispose, hl, hc]

theorem sessionDetach_noHeap {s : ConnState} {h : Nat}
    (hl : alookup s.sessions h = none) : sessionDetach s h = Except.ok (s, []) := by
  simp [sessionDetach, hl]

theorem sessionDetach_closed {s : ConnState} {h : Nat} {sess : SessionState}
    (hl : alookup s.sessions h = some sess) (hc : sess.connected = false) :
    sessionDetach s h =
      Except.error "Session already detached. Most likely the target has been closed." := by
  simp [sessionDetach, hl, hc]

theorem sessionDetach_open {s : ConnState} {h : Nat} {sess : SessionState}
    (hl : alookup s.sessions h = some sess) (hc : sess.connected = true) :
    sessionDetach s h = Except.ok ({ s with lastId := s.lastId + 1 }, [Ev.sent (s.lastId + 1) "Target.detachFromTarget" (if sess.sessionId == "" then none else some sess.sessionId) (JValue.obj [])]) := by
  simp [sessionDetach, hl, hc]

theorem connTransportClose_closed {s : ConnState} (hc : s.closed = true) :
    connTransportClose s = (s, []) := by
  simp [connTransportClose, hc]

theorem connTransportClose_open {s : ConnState} (hc : s.closed = false) :
    connTransportClose s = ({ (closeAll { s with closed := true } s.registry).1 with registry := [] }, (closeAll { s with closed := true } s.registry).2) := by
  simp [connTransportClose, hc]

/-! ### Invariant preservation -/

theorem alookup_of_cbCount_zero {cbs : List (Nat × ProtocolCallback)} {id : Nat}
    (h : cbCount cbs id = 0) : alookup cbs id = none := by
  cases hl : alookup cbs id with
  | none => rfl
  | some cb =>
    have := cbCount_adel_self hl
    omega

theorem handleBound_hupd {l : List (Nat × SessionState)} {c h : Nat} {ns : SessionState}
    (hb : ∀ p ∈ l, p.1 < c) : ∀ p ∈ hupd l h ns, p.1 < c := by
  intro p hp
  simp only [hupd, List.mem_map] at hp
  obtain ⟨q, hq, rfl⟩ := hp
  cases hqb : q.1 == h <;> simpa using hb q hq

theorem cbCount_single (i : Nat) (cb : ProtocolCallback) (id : Nat) :
    cbCount [(i, cb)] id = if (i == id) = true then 1 else 0 := by
  simp [cbCount, List.countP_cons, List.countP_nil]

theorem countIssued_sendPair (i hh : Nat) (m : String) (sid : Option String) (prm : JValue)
    (id : Nat) : countIssued [Ev.sent i m sid prm, Ev.issued hh i m] id =
      cbCount [(i, ({ method := m } : ProtocolCallback))] id := by
  cases hb : i == id <;>
    simp [countIssued, cbCount, List.countP_cons, List.countP_nil, hb]

theorem countSettled_sendPair (i hh : Nat) (m : String) (sid : Option String) (prm : JValue)
    (id : Nat) : countSettled [Ev.sent i m sid prm, Ev.issued hh i m] id = 0 := by
  simp [countSettled, List.countP_cons, List.countP_nil]

theorem INV0_append_nil {s : ConnState} {evs : List Ev} (hI : INV0 s evs) :
    INV0 s (evs ++ []) := by
  simpa using hI

theorem sendOrDieF_INV0 {s : ConnState} {evs : List Ev} (h : Nat) (m : String) (prm : JValue)
    (hI : INV0 s evs) :
    INV0 (sendOrDieF s h m prm).1 (evs ++ (sendOrDieF s h m prm).2) := by
  obtain ⟨hA, hB, hC, hN, hH⟩ := hI
  cases hl : alookup s.sessions h with
  | none =>
    rw [sendOrDieF_none m prm hl]
    exact INV0_append_nil ⟨hA, hB, hC, hN, hH⟩
  | some sess =>
    cases hc : sess.connected with
    | false =>
      have hmain : INV0 s (evs ++ [Ev.settledImmediate m ("Protocol error (" ++ m ++ "): Session closed. Most likely the target has been closed.")]) := by
        refine ⟨?_, ?_, ?_, hN, hH⟩
        · intro id
          rw [countIssued_append, countSettled_append]
          have e1 : countIssued [Ev.settledImmediate m ("Protocol error (" ++ m ++ "): Session closed. Most likely the target has been closed.")] id = 0 := rfl
          have e2 : countSettled [Ev.settledImmediate m ("Protocol error (" ++ m ++ "): Session closed. Most likely the target has been closed.")] id = 0 := rfl
          have := hA id
          omega
        · intro id hnz
          rw [countIssued_append] at hnz
          have e1 : countIssued [Ev.settledImmediate m ("Protocol error (" ++ m ++ "): Session closed. Most likely the target has been closed.")] id = 0 := rfl
          exact hB id (by omega)
        · intro id
          rw [countIssued_append]
          have e1 : countIssued [Ev.settledImmediate m ("Protocol error (" ++ m ++ "): Session closed. Most likely the target has been closed.")] id = 0 := rfl
          have := hC id
          omega
      rw [sendOrDieF_closed m prm hl hc]
      exact hmain
    | true =>
      have hpend0 : pendingCount s (s.lastId + 1) = 0 := by
        have hAi := hA (s.lastId + 1)
        have hiz : countIssued evs (s.lastId + 1) = 0 := by
          by_contra hnz
          have := hB _ hnz
          omega
        omega
      have hcb0 : cbCount sess.callbacks (s.lastId + 1) = 0 := by
        obtain ⟨rest, h1, _⟩ := pend_split hN hl sess (s.lastId + 1)
        rw [pendingCount_eq_pendSum] at hpend0
        omega
      have haset : aset sess.callbacks (s.lastId + 1) { method := m } = sess.callbacks ++ [(s.lastId + 1, { method := m })] := aset_of_none (alookup_of_cbCount_zero hcb0) _
      have hmain : INV0 { s with lastId := s.lastId + 1, sessions := hupd s.sessions h { sess with callbacks := sess.callbacks ++ [(s.lastId + 1, { method := m })] } } (evs ++ [Ev.sent (s.lastId + 1) m (if sess.sessionId == "" then none else some sess.sessionId) prm, Ev.issued h (s.lastId + 1) m]) := by
        refine ⟨?_, ?_, ?_, ?_, ?_⟩
        · intro id'
          obtain ⟨rest, h1, h2⟩ := pend_split hN hl { sess with callbacks := sess.callbacks ++ [(s.lastId + 1, { method := m })] } id'
          have hAid := hA id'
          rw [pendingCount_eq_pendSum, h1] at hAid
          have h2' : pendingCount { s with lastId := s.lastId + 1, sessions := hupd s.sessions h { sess with callbacks := sess.callbacks ++ [(s.lastId + 1, { method := m })] } } id' = cbCount (sess.callbacks ++ [(s.lastId + 1, { method := m })]) id' + rest := by
            rw [pendingCount_eq_pendSum]
            exact h2
          rw [countIssued_append, countSettled_append, h2', cbCount_append,
            countIssued_sendPair, countSettled_sendPair]
          omega
        · intro id' hnz
          rw [countIssued_append, countIssued_sendPair, cbCount_single] at hnz
          show id' ≤ s.lastId + 1
          cases hbb : (s.lastId + 1) == id' with
          | true =>
            have : s.lastId + 1 = id' := by simpa using hbb
            omega
          | false =>
            rw [hbb] at hnz
            simp only [Bool.false_eq_true, if_false] at hnz
            have hle := hB id' (by omega)
            omega
        · intro id'
          rw [countIssued_append, countIssued_sendPair, cbCount_single]
          cases hbb : (s.lastId + 1) == id' with
          | true =>
            have he : s.lastId + 1 = id' := by simpa using hbb
            have hiz : countIssued evs id' = 0 := by
              by_contra hnz
              have := hB _ hnz
              omega
            simp only [if_true]
            omega
          | false =>
            simp only [Bool.false_eq_true, if_false]
            have := hC id'
            omega
        · exact heapNodup_hupd s h _ hN
        · intro p hp
          exact handleBound_hupd hH p hp
      rw [sendOrDieF_open m prm hl hc, haset]
      exact hmain

theorem countIssued_single (e : Ev) (id : Nat) : countIssued [e] id = evIssuedCt e id := by
  rw [countIssued_cons, countIssued_nil, Nat.zero_add]

theorem countSettled_single (e : Ev) (id : Nat) : countSettled [e] id = evSettledCt e id := by
  rw [countSettled_cons, countSettled_nil, Nat.zero_add]

theorem INV0_append_neutral {s : ConnState} {evs : List Ev} (e : Ev)
    (hiz : ∀ id, evIssuedCt e id = 0) (hsz : ∀ id, evSettledCt e id = 0)
    (hI : INV0 s evs) : INV0 s (evs ++ [e]) := by
  obtain ⟨hA, hB, hC, hN, hH⟩ := hI
  refine ⟨?_, ?_, ?_, hN, hH⟩
  · intro id
    rw [countIssued_append, countSettled_append, countIssued_single, countSettled_single,
      hiz id, hsz id]
    have := hA id
    omega
  · intro id hnz
    rw [countIssued_append, countIssued_single, hiz id] at hnz
    exact hB id (by omega)
  · intro id
    rw [countIssued_append, countIssued_single, hiz id]
    have := hC id
    omega

theorem settle_INV0 {s : ConnState} {evs : List Ev} {h : Nat} {sess : SessionState} {n : Nat}
    {cb : ProtocolCallback} (out : Outcome) (hl : alookup s.sessions h = some sess)
    (hcb : alookup sess.callbacks n = some cb) (hI : INV0 s evs) :
    INV0 { s with sessions := hupd s.sessions h { sess with callbacks := adel sess.callbacks n } } (evs ++ [Ev.settled n out]) := by
  obtain ⟨hA, hB, hC, hN, hH⟩ := hI
  refine ⟨?_, ?_, ?_, ?_, ?_⟩
  · intro id'
    obtain ⟨rest, h1, h2⟩ := pend_split hN hl { sess with callbacks := adel sess.callbacks n } id'
    have hAid := hA id'
    rw [pendingCount_eq_pendSum, h1] at hAid
    have h2' : pendingCount { s with sessions := hupd s.sessions h { sess with callbacks := adel sess.callbacks n } } id' = cbCount (adel sess.callbacks n) id' + rest := by
      rw [pendingCount_eq_pendSum]
      exact h2
    rw [countIssued_append, countSettled_append, countIssued_single, countSettled_single, h2']
    by_cases hid : id' = n
    · subst hid
      have hdel := cbCount_adel_self hcb
      have e2 : evSettledCt (Ev.settled id' out) id' = 1 := by
        simp [evSettledCt]
      rw [e2]
      have e1 : evIssuedCt (Ev.settled id' out) id' = 0 := rfl
      rw [e1]
      omega
    · have hdel := @cbCount_adel_ne sess.callbacks n id' hid
      have e2 : evSettledCt (Ev.settled n out) id' = 0 := by
        have : (n == id') = false := by
          simp only [beq_eq_false_iff_ne]
          exact fun e => hid e.symm
        simp [evSettledCt, this]
      have e1 : evIssuedCt (Ev.settled n out) id' = 0 := rfl
      rw [e1, e2]
      omega
  · intro id hnz
    rw [countIssued_append, countIssued_single] at hnz
    have e1 : evIssuedCt (Ev.settled n out) id = 0 := rfl
    exact hB id (by omega)
  · intro id
    rw [countIssued_append, countIssued_single]
    have e1 : evIssuedCt (Ev.settled n out) id = 0 := rfl
    have := hC id
    omega
  · exact heapNodup_hupd s h _ hN
  · intro p hp
    exact handleBound_hupd hH p hp

theorem sessionOnMessage_INV0 {s : ConnState} {evs : List Ev} {h : Nat} {o : InboundMessage}
    {r : ConnState × List Ev} (hok : sessionOnMessage s h o = Except.ok r)
    (hI : INV0 s evs) : INV0 r.1 (evs ++ r.2) := by
  cases hl : alookup s.sessions h with
  | none =>
    rw [sessionOnMessage_noHeap o hl] at hok
    cases hok
    exact INV0_append_nil hI
  | some sess =>
    cases hid : o.id with
    | none =>
      rw [sessionOnMessage_noId o hl hid] at hok
      cases hok
      exact INV0_append_neutral _ (fun _ => rfl) (fun _ => rfl) hI
    | some n =>
      by_cases hn : n = 0
      · subst hn
        rw [sessionOnMessage_zeroId o hl hid] at hok
        cases hok
        exact INV0_append_neutral _ (fun _ => rfl) (fun _ => rfl) hI
      · cases hcb : alookup sess.callbacks n with
        | none =>
          rw [sessionOnMessage_unmatched o hl hid hn hcb] at hok
          cases hok
        | some cb =>
          cases herr : o.error with
          | some err =>
            rw [sessionOnMessage_reject o hl hid hn hcb herr] at hok
            cases hok
            exact settle_INV0 _ hl hcb hI
          | none =>
            rw [sessionOnMessage_resolve o hl hid hn hcb herr] at hok
            cases hok
            exact settle_INV0 _ hl hcb hI

theorem connOnMessage_INV0 {s : ConnState} {evs : List Ev} {o : InboundMessage}
    {r : ConnState × List Ev} (hok : connOnMessage s o = Except.ok r)
    (hI : INV0 s evs) : INV0 r.1 (evs ++ r.2) := by
  cases hr : alookup s.registry (sessionKey o) with
  | none =>
    rw [connOnMessage_unknown o hr] at hok
    cases hok
  | some h =>
    rw [connOnMessage_found o hr] at hok
    exact sessionOnMessage_INV0 hok hI

theorem createSessionF_INV0 {s : ConnState} {evs : List Ev} (sid : String)
    (hI : INV0 s evs) : INV0 (createSessionF s sid).2 evs := by
  obtain ⟨hA, hB, hC, hN, hH⟩ := hI
  have hfresh : s.nextHandle ∉ s.sessions.map Prod.fst := by
    intro hm
    obtain ⟨p, hp, he⟩ := List.mem_map.mp hm
    have := hH p hp
    omega
  refine ⟨?_, ?_, ?_, ?_, ?_⟩
  · intro id
    have hAi := hA id
    rw [pendingCount_eq_pendSum] at hAi
    have hps : pendingCount (createSessionF s sid).2 id = pendSum s.sessions id := by
      rw [pendingCount_eq_pendSum]
      show pendSum (s.sessions ++ [(s.nextHandle, { sessionId := sid, connected := true, callbacks := [] })]) id = _
      rw [pendSum_append]
      have : pendSum [(s.nextHandle, ({ sessionId := sid, connected := true, callbacks := [] } : SessionState))] id = 0 := rfl
      omega
    rw [hps]
    exact hAi
  · intro id hnz
    exact hB id hnz
  · exact hC
  · show ((s.sessions ++ [(s.nextHandle, ({ sessionId := sid, connected := true, callbacks := [] } : SessionState))]).map Prod.fst).Nodup
    rw [List.map_append]
    rw [List.nodup_append]
    refine ⟨hN, List.nodup_singleton _, ?_⟩
    intro x hx hmem
    simp only [List.map_cons, List.map_nil, List.mem_singleton] at hmem
    subst hmem
    exact hfresh hx
  · intro p hp
    show p.1 < s.nextHandle + 1
    rcases List.mem_append.mp hp with hp | hp
    · have := hH p hp
      omega
    · simp only [List.mem_singleton] at hp
      subst hp
      omega

theorem closeSession_handleBound {s : ConnState} (h : Nat) (hH : handleBound s) :
    handleBound (closeSession s h).1 := by
  cases hl : alookup s.sessions h with
  | none =>
    rw [closeSession_none hl]
    exact hH
  | some sess =>
    rw [closeSession_found hl]
    intro p hp
    exact handleBound_hupd hH p hp

theorem closeAll_handleBound (L : List (String × Nat)) (s : ConnState) (hH : handleBound s) :
    handleBound (closeAll s L).1 := by
  induction L generalizing s with
  | nil => exact hH
  | cons q t ih =>
    simp only [closeAll]
    exact ih (closeSession s q.2).1 (closeSession_handleBound q.2 hH)

theorem sessionDispose_INV0 {s : ConnState} {evs : List Ev} (h : Nat) (hI : INV0 s evs) :
    INV0 (sessionDispose s h).1 (evs ++ (sessionDispose s h).2) := by
  obtain ⟨hA, hB, hC, hN, hH⟩ := hI
  cases hl : alookup s.sessions h with
  | none =>
    rw [sessionDispose_none hl]
    exact INV0_append_nil ⟨hA, hB, hC, hN, hH⟩
  | some sess =>
    cases hc : sess.connected with
    | false =>
      rw [sessionDispose_closed hl hc]
      exact INV0_append_nil ⟨hA, hB, hC, hN, hH⟩
    | true =>
      obtain ⟨a1, n1, l1, c1, x1, r1, i1, s1⟩ := closeSession_acct h hA hN
      have hmain : INV0 { (closeSession s h).1 with registry := adel (closeSession s h).1.registry sess.sessionId } (evs ++ (closeSession s h).2) := by
        refine ⟨?_, ?_, ?_, ?_, ?_⟩
        · exact a1
        · intro id hnz
          rw [countIssued_append, i1 id] at hnz
          have hle := hB id (by omega)
          have : ({ (closeSession s h).1 with registry := adel (closeSession s h).1.registry sess.sessionId } : ConnState).lastId = s.lastId := l1
          omega
        · intro id
          rw [countIssued_append, i1 id]
          have := hC id
          omega
        · exact n1
        · intro p hp
          exact closeSession_handleBound h hH p hp
      rw [sessionDispose_open hl hc]
      exact hmain

theorem connTransportClose_INV0 {s : ConnState} {evs : List Ev} (hI : INV0 s evs) :
    INV0 (connTransportClose s).1 (evs ++ (connTransportClose s).2) := by
  obtain ⟨hA, hB, hC, hN, hH⟩ := hI
  cases hcl : s.closed with
  | true =>
    rw [connTransportClose_closed hcl]
    exact INV0_append_nil ⟨hA, hB, hC, hN, hH⟩
  | false =>
    obtain ⟨a1, n1, l1, c1, x1, r1, i1, s1⟩ :=
      closeAll_effects s.registry { s with closed := true } evs hA hN
    have hmain : INV0 { (closeAll { s with closed := true } s.registry).1 with registry := [] } (evs ++ (closeAll { s with closed := true } s.registry).2) := by
      refine ⟨?_, ?_, ?_, ?_, ?_⟩
      · exact a1
      · intro id hnz
        rw [countIssued_append, i1 id] at hnz
        have hle := hB id (by omega)
        have hlast : ({ (closeAll { s with closed := true } s.registry).1 with registry := ([] : List (String × Nat)) } : ConnState).lastId = s.lastId := l1
        omega
      · intro id
        rw [countIssued_append, i1 id]
        have := hC id
        omega
      · exact n1
      · intro p hp
        exact closeAll_handleBound s.registry { s with closed := true } hH p hp
    rw [connTransportClose_open hcl]
    exact hmain

theorem sessionDetach_INV0 {s : ConnState} {evs : List Ev} {h : Nat}
    {r : ConnState × List Ev} (hok : sessionDetach s h = Except.ok r)
    (hI : INV0 s evs) : INV0 r.1 (evs ++ r.2) := by
  obtain ⟨hA, hB, hC, hN, hH⟩ := hI
  cases hl : alookup s.sessions h with
  | none =>
    rw [sessionDetach_noHeap hl] at hok
    cases hok
    exact INV0_append_nil ⟨hA, hB, hC, hN, hH⟩
  | some sess =>
    cases hc : sess.connected with
    | false =>
      rw [sessionDetach_closed hl hc] at hok
      cases hok
    | true =>
      rw [sessionDetach_open hl hc] at hok
      cases hok
      show INV0 { s with lastId := s.lastId + 1 } (evs ++ [Ev.sent (s.lastId + 1) "Target.detachFromTarget" (if sess.sessionId == "" then none else some sess.sessionId) (JValue.obj [])])
      refine ⟨?_, ?_, ?_, hN, hH⟩
      · intro id
        rw [countIssued_append, countSettled_append, countIssued_single, countSettled_single]
        have e1 : evIssuedCt (Ev.sent (s.lastId + 1) "Target.detachFromTarget" (if sess.sessionId == "" then none else some sess.sessionId) (JValue.obj [])) id = 0 := rfl
        have e2 : evSettledCt (Ev.sent (s.lastId + 1) "Target.detachFromTarget" (if sess.sessionId == "" then none else some sess.sessionId) (JValue.obj [])) id = 0 := rfl
        have hps : pendingCount { s with lastId := s.lastId + 1 } id = pendingCount s id := rfl
        have := hA id
        omega
      · intro id hnz
        rw [countIssued_append, countIssued_single] at hnz
        have e1 : evIssuedCt (Ev.sent (s.lastId + 1) "Target.detachFromTarget" (if sess.sessionId == "" then none else some sess.sessionId) (JValue.obj [])) id = 0 := rfl
        have hle := hB id (by omega)
        show id ≤ s.lastId + 1
        omega
      · intro id
        rw [countIssued_append, countIssued_single]
        have e1 : evIssuedCt (Ev.sent (s.lastId + 1) "Target.detachFromTarget" (if sess.sessionId == "" then none else some sess.sessionId) (JValue.obj [])) id = 0 := rfl
        have := hC id
        omega

theorem step_INV0 (s : ConnState) (evs : List Ev) (st : Step) (hI : INV0 s evs) :
    INV0 (step s st).1 (evs ++ (step s st).2) := by
  cases st with
  | sendOrDie h m prm => exact sendOrDieF_INV0 h m prm hI
  | deliver o =>
    simp only [step]
    by_cases hcl : s.closed = true
    · rw [if_pos hcl]
      exact INV0_append_nil hI
    · rw [if_neg hcl]
      cases hok : connOnMessage s o with
      | ok r =>
        simp only [hok]
        exact connOnMessage_INV0 hok hI
      | error e =>
        simp only [hok]
        exact INV0_append_nil hI
  | createSession sid => exact INV0_append_nil (createSessionF_INV0 sid hI)
  | disposeSession h => exact sessionDispose_INV0 h hI
  | transportClose => exact connTransportClose_INV0 hI
  | dispose => exact connTransportClose_INV0 hI
  | detach h =>
    simp only [step]
    cases hok : sessionDetach s h with
    | ok r =>
      simp only [hok]
      exact sessionDetach_INV0 hok hI
    | error e =>
      simp only [hok]
      exact INV0_append_nil hI

/-! ### Registry-consistency invariants under the createSession discipline -/

theorem alookup_mem_values {α β : Type} [BEq α] [LawfulBEq α] {l : List (α × β)} {k : α} {v : β}
    (h : alookup l k = some v) : v ∈ l.map Prod.snd :=
  List.mem_map.mpr ⟨(k, v), alookup_some_mem h, rfl⟩

theorem alookup_append_cases {α β : Type} [BEq α] {l m : List (α × β)} {k : α} {v : β}
    (h : alookup (l ++ m) k = some v) :
    alookup l k = some v ∨ (alookup l k = none ∧ alookup m k = some v) := by
  cases hl : alookup l k with
  | none =>
    right
    refine ⟨rfl, ?_⟩
    rw [alookup_append_none hl] at h
    exact h
  | some v' =>
    left
    have h2 : alookup (l ++ m) k = some v' := alookup_append_some hl
    rw [h2] at h
    injection h with he
    exact congrArg some he

theorem alookup_singleton_inv {α β : Type} [BEq α] [LawfulBEq α] {k k' : α} {v v' : β}
    (h : alookup [(k, v)] k' = some v') : k = k' ∧ v = v' := by
  cases hb : k == k' with
  | true =>
    have hk : k = k' := by simpa using hb
    rw [alookup_pair_self v [] hb] at h
    injection h with he
    exact ⟨hk, he⟩
  | false =>
    rw [alookup_pair_ne v [] hb] at h
    simp [alookup] at h

theorem regProps_hupd_callbacks {s : ConnState} {h : Nat} {sess : SessionState}
    (newcbs : List (Nat × ProtocolCallback)) (hl : alookup s.sessions h = some sess)
    (hc : sess.connected = true)
    (hro : regOk s) (hsr : sessReg s) (hde : discEmpty s) :
    (∀ sid h', alookup s.registry sid = some h' →
       ∃ sess', alookup (hupd s.sessions h { sess with callbacks := newcbs }) h' = some sess' ∧
         sess'.sessionId = sid ∧ sess'.connected = true) ∧
    (∀ h' sess', alookup (hupd s.sessions h { sess with callbacks := newcbs }) h' = some sess' →
       sess'.connected = true → s.closed = false ∧ alookup s.registry sess'.sessionId = some h') ∧
    (∀ h' sess', alookup (hupd s.sessions h { sess with callbacks := newcbs }) h' = some sess' →
       sess'.connected = false → sess'.callbacks = []) := by
  refine ⟨?_, ?_, ?_⟩
  · intro sid h' hlk
    obtain ⟨sess', hl', hsid, hconn⟩ := hro sid h' hlk
    by_cases hh : h' = h
    · rw [hh] at hl'
      rw [hl] at hl'
      injection hl' with he
      refine ⟨{ sess with callbacks := newcbs }, ?_, ?_, ?_⟩
      · rw [hh]
        exact alookup_hupd_self hl _
      · rw [← he] at hsid
        exact hsid
      · rw [← he] at hconn
        exact hconn
    · refine ⟨sess', ?_, hsid, hconn⟩
      rw [alookup_hupd_ne hh]
      exact hl'
  · intro h' sess' hl' hc'
    by_cases hh : h' = h
    · rw [hh] at hl'
      rw [alookup_hupd_self hl] at hl'
      injection hl' with he
      rw [hh, ← he]
      exact hsr h sess hl hc
    · rw [alookup_hupd_ne hh] at hl'
      exact hsr h' sess' hl' hc'
  · intro h' sess' hl' hc'
    by_cases hh : h' = h
    · rw [hh] at hl'
      rw [alookup_hupd_self hl] at hl'
      injection hl' with he
      rw [← he] at hc'
      have hxx : sess.connected = false := hc'
      rw [hc] at hxx
      simp at hxx
    · rw [alookup_hupd_ne hh] at hl'
      exact hde h' sess' hl' hc'

theorem connTransportClose_RegINV {s : ConnState}
    (hN : heapNodup s) (hro : regOk s) (hsr : sessReg s) (hde : discEmpty s)
    (hrn : regNodup s) :
    regOk (connTransportClose s).1 ∧ sessReg (connTransportClose s).1 ∧
      discEmpty (connTransportClose s).1 ∧ regNodup (connTransportClose s).1 := by
  cases hcl : s.closed with
  | true =>
    rw [connTransportClose_closed hcl]
    exact ⟨hro, hsr, hde, hrn⟩
  | false =>
    rw [connTransportClose_open hcl]
    have hpre : ∀ h sess, alookup s.sessions h = some sess →
        (sess.callbacks ≠ [] ∨ sess.connected = true) → h ∈ s.registry.map Prod.snd := by
      intro h sess hl hp
      have hconn : sess.connected = true := by
        cases hx : sess.connected with
        | false =>
          have hemp := hde h sess hl hx
          rcases hp with hp | hp
          · exact absurd hemp hp
          · rw [hx] at hp
            simp at hp
        | true => rfl
      obtain ⟨_, hreg⟩ := hsr h sess hl hconn
      exact alookup_mem_values hreg
    have hclears := closeAll_clears s.registry { s with closed := true } hN hpre
    refine ⟨?_, ?_, ?_, ?_⟩
    · intro sid' h' hlk
      have hlk' : (none : Option Nat) = some h' := hlk
      cases hlk'
    · intro h' sess' hlk hc'
      have := (hclears h' sess' hlk).2
      rw [this] at hc'
      simp at hc'
    · intro h' sess' hlk _
      exact (hclears h' sess' hlk).1
    · show (([] : List (String × Nat)).map Prod.fst).Nodup
      simp

theorem step_INV (s : ConnState) (evs : List Ev) (st : Step) (hw : wfStep s st = true)
    (hI : INV s evs) : INV (step s st).1 (evs ++ (step s st).2) := by
  obtain ⟨hI0, hro, hsr, hde, hrn⟩ := hI
  have hI0' : INV0 (step s st).1 (evs ++ (step s st).2) := step_INV0 s evs st hI0
  refine ⟨hI0', ?_⟩
  obtain ⟨hA, hB, hC, hN, hH⟩ := hI0
  cases st with
  | sendOrDie h m prm =>
    show regOk (sendOrDieF s h m prm).1 ∧ sessReg (sendOrDieF s h m prm).1 ∧
      discEmpty (sendOrDieF s h m prm).1 ∧ regNodup (sendOrDieF s h m prm).1
    cases hl : alookup s.sessions h with
    | none =>
      rw [sendOrDieF_none m prm hl]
      exact ⟨hro, hsr, hde, hrn⟩
    | some sess =>
      cases hc : sess.connected with
      | false =>
        rw [sendOrDieF_closed m prm hl hc]
        exact ⟨hro, hsr, hde, hrn⟩
      | true =>
        rw [sendOrDieF_open m prm hl hc]
        obtain ⟨p1, p2, p3⟩ := regProps_hupd_callbacks
          (aset sess.callbacks (s.lastId + 1) { method := m }) hl hc hro hsr hde
        exact ⟨p1, p2, p3, hrn⟩
  | deliver o =>
    simp only [step]
    by_cases hcl : s.closed = true
    · rw [if_pos hcl]
      exact ⟨hro, hsr, hde, hrn⟩
    · rw [if_neg hcl]
      cases hr : alookup s.registry (sessionKey o) with
      | none =>
        rw [connOnMessage_unknown o hr]
        exact ⟨hro, hsr, hde, hrn⟩
      | some hh =>
        rw [connOnMessage_found o hr]
        cases hl : alookup s.sessions hh with
        | none =>
          rw [sessionOnMessage_noHeap o hl]
          exact ⟨hro, hsr, hde, hrn⟩
        | some sess =>
          cases hid : o.id with
          | none =>
            rw [sessionOnMessage_noId o hl hid]
            exact ⟨hro, hsr, hde, hrn⟩
          | some n =>
            by_cases hn : n = 0
            · subst hn
              rw [sessionOnMessage_zeroId o hl hid]
              exact ⟨hro, hsr, hde, hrn⟩
            · cases hcb : alookup sess.callbacks n with
              | none =>
                rw [sessionOnMessage_unmatched o hl hid hn hcb]
                exact ⟨hro, hsr, hde, hrn⟩
              | some cb =>
                have hconn : sess.connected = true := by
                  by_contra hcc
                  have hcf : sess.connected = false := by
                    cases hx : sess.connected
                    · rfl
                    · exact absurd hx hcc
                  have hemp := hde hh sess hl hcf
                  rw [hemp] at hcb
                  simp [alookup] at hcb
                obtain ⟨p1, p2, p3⟩ := regProps_hupd_callbacks
                  (adel sess.callbacks n) hl hconn hro hsr hde
                cases herr : o.error with
                | some err =>
                  rw [sessionOnMessage_reject o hl hid hn hcb herr]
                  exact ⟨p1, p2, p3, hrn⟩
                | none =>
                  rw [sessionOnMessage_resolve o hl hid hn hcb herr]
                  exact ⟨p1, p2, p3, hrn⟩
  | createSession sid =>
    simp only [wfStep, Bool.and_eq_true] at hw
    have hclosed : s.closed = false := by
      cases hx : s.closed
      · rfl
      · rw [hx] at hw
        simp at hw
    have hfresh : alookup s.registry sid = none := by
      cases hx : alookup s.registry sid
      · rfl
      · rw [hx] at hw
        simp at hw
    have hhfresh : alookup s.sessions s.nextHandle = none := by
      apply not_mem_alookup_none
      intro hm
      obtain ⟨p, hp, he⟩ := List.mem_map.mp hm
      have := hH p hp
      omega
    have hregeq : aset s.registry sid s.nextHandle = s.registry ++ [(sid, s.nextHandle)] :=
      aset_of_none hfresh _
    show regOk (createSessionF s sid).2 ∧ sessReg (createSessionF s sid).2 ∧
      discEmpty (createSessionF s sid).2 ∧ regNodup (createSessionF s sid).2
    simp only [createSessionF, hregeq]
    refine ⟨?_, ?_, ?_, ?_⟩
    · intro sid' h' hlk
      rcases alookup_append_cases hlk with hlk | ⟨hnone, hlk⟩
      · obtain ⟨sess', hl', hsid, hconn⟩ := hro sid' h' hlk
        exact ⟨sess', alookup_append_some hl', hsid, hconn⟩
      · obtain ⟨he1, he2⟩ := alookup_singleton_inv hlk
        refine ⟨{ sessionId := sid, connected := true, callbacks := [] }, ?_, ?_, rfl⟩
        · rw [← he2]
          rw [alookup_append_none hhfresh]
          exact alookup_pair_self _ [] (by simp)
        · exact he1
    · intro h' sess' hlk hc'
      rcases alookup_append_cases hlk with hlk | ⟨hnone, hlk⟩
      · obtain ⟨_, hreg⟩ := hsr h' sess' hlk hc'
        exact ⟨hclosed, alookup_append_some hreg⟩
      · obtain ⟨he1, he2⟩ := alookup_singleton_inv hlk
        refine ⟨hclosed, ?_⟩
        rw [← he2, ← he1]
        rw [alookup_append_none hfresh]
        exact alookup_pair_self _ [] (by simp)
    · intro h' sess' hlk hc'
      rcases alookup_append_cases hlk with hlk | ⟨hnone, hlk⟩
      · exact hde h' sess' hlk hc'
      · obtain ⟨he1, he2⟩ := alookup_singleton_inv hlk
        rw [← he2]
    · show ((s.registry ++ [(sid, s.nextHandle)]).map Prod.fst).Nodup
      rw [List.map_append, List.nodup_append]
      refine ⟨hrn, List.nodup_singleton _, ?_⟩
      intro x hx hmem
      simp only [List.map_cons, List.map_nil, List.mem_singleton] at hmem
      subst hmem
      exact (alookup_none_not_mem hfresh) hx
  | disposeSession h =>
    show regOk (sessionDispose s h).1 ∧ sessReg (sessionDispose s h).1 ∧
      discEmpty (sessionDispose s h).1 ∧ regNodup (sessionDispose s h).1
    cases hl : alookup s.sessions h with
    | none =>
      rw [sessionDispose_none hl]
      exact ⟨hro, hsr, hde, hrn⟩
    | some sess =>
      cases hc : sess.connected with
      | false =>
        rw [sessionDispose_closed hl hc]
        exact ⟨hro, hsr, hde, hrn⟩
      | true =>
        rw [sessionDispose_open hl hc, closeSession_found hl]
        refine ⟨?_, ?_, ?_, ?_⟩
        · intro sid' h' hlk
          have hlk' : alookup (adel s.registry sess.sessionId) sid' = some h' := hlk
          by_cases hsid : sid' = sess.sessionId
          · rw [hsid] at hlk'
            rw [alookup_adel_self hrn] at hlk'
            cases hlk'
          · rw [alookup_adel_ne hsid] at hlk'
            obtain ⟨sess', hl', hsidp, hconn⟩ := hro sid' h' hlk'
            by_cases hh : h' = h
            · rw [hh] at hl'
              rw [hl] at hl'
              injection hl' with he
              rw [← he] at hsidp
              exact absurd hsidp.symm hsid
            · refine ⟨sess', ?_, hsidp, hconn⟩
              rw [alookup_hupd_ne hh]
              exact hl'
        · intro h' sess' hlk hc'
          have hlk' : alookup (hupd s.sessions h { sess with callbacks := [], connected := false }) h' = some sess' := hlk
          by_cases hh : h' = h
          · rw [hh] at hlk'
            rw [alookup_hupd_self hl] at hlk'
            injection hlk' with he
            rw [← he] at hc'
            simp at hc'
          · rw [alookup_hupd_ne hh] at hlk'
            obtain ⟨hclosed, hreg⟩ := hsr h' sess' hlk' hc'
            refine ⟨hclosed, ?_⟩
            have hne : sess'.sessionId ≠ sess.sessionId := by
              intro he
              obtain ⟨_, hreg2⟩ := hsr h sess hl hc
              rw [he] at hreg
              rw [hreg] at hreg2
              injection hreg2 with hv
              exact hh hv
            show alookup (adel s.registry sess.sessionId) sess'.sessionId = some h'
            rw [alookup_adel_ne hne]
            exact hreg
        · intro h' sess' hlk hc'
          have hlk' : alookup (hupd s.sessions h { sess with callbacks := [], connected := false }) h' = some sess' := hlk
          by_cases hh : h' = h
          · rw [hh] at hlk'
            rw [alookup_hupd_self hl] at hlk'
            injection hlk' with he
            rw [← he]
          · rw [alookup_hupd_ne hh] at hlk'
            exact hde h' sess' hlk' hc'
        · show ((adel s.registry sess.sessionId).map Prod.fst).Nodup
          exact nodup_keys_adel hrn
  | transportClose =>
    exact connTransportClose_RegINV hN hro hsr hde hrn
  | dispose =>
    exact connTransportClose_RegINV hN hro hsr hde hrn
  | detach h =>
    simp only [step]
    cases hok : sessionDetach s h with
    | error e =>
      simp only [hok]
      exact ⟨hro, hsr, hde, hrn⟩
    | ok r =>
      simp only [hok]
      cases hl : alookup s.sessions h with
      | none =>
        rw [sessionDetach_noHeap hl] at hok
        cases hok
        exact ⟨hro, hsr, hde, hrn⟩
      | some sess =>
        cases hc : sess.connected with
        | false =>
          rw [sessionDetach_closed hl hc] at hok
          cases hok
        | true =>
          rw [sessionDetach_open hl hc] at hok
          cases hok
          exact ⟨hro, hsr, hde, hrn⟩

/-! ### Trace-level invariants -/

theorem runAux_INV0 (tr : List Step) :
    ∀ (s : ConnState) (evs : List Ev), INV0 s evs →
      INV0 (runAux s evs tr).1 (runAux s evs tr).2 := by
  induction tr with
  | nil => intro s evs hI; exact hI
  | cons st t ih =>
    intro s evs hI
    exact ih (step s st).1 (evs ++ (step s st).2) (step_INV0 s evs st hI)

theorem runAux_INV (tr : List Step) :
    ∀ (s : ConnState) (evs : List Ev), wfRun s tr = true → INV s evs →
      INV (runAux s evs tr).1 (runAux s evs tr).2 := by
  induction tr with
  | nil => intro s evs _ hI; exact hI
  | cons st t ih =>
    intro s evs hw hI
    simp only [wfRun, Bool.and_eq_true] at hw
    exact ih (step s st).1 (evs ++ (step s st).2) hw.2 (step_INV s evs st hw.1 hI)

theorem INV0_init : INV0 initConn [] := by
  refine ⟨fun id => rfl, ?_, ?_, ?_, ?_⟩
  · intro id hnz
    exact absurd rfl hnz
  · intro id
    exact Nat.zero_le 1
  · exact List.nodup_singleton rootHandle
  · intro p hp
    have hps := List.mem_singleton.mp hp
    rw [hps]
    decide

theorem INV_init : INV initConn [] := by
  refine ⟨INV0_init, ?_, ?_, ?_, ?_⟩
  · intro sid h hlk
    obtain ⟨he1, he2⟩ := alookup_singleton_inv hlk
    refine ⟨{ sessionId := "", connected := true, callbacks := [] }, ?_, ?_, rfl⟩
    · rw [← he2]
      rfl
    · rw [← he1]
  · intro h sess hl hc
    obtain ⟨he1, he2⟩ := alookup_singleton_inv hl
    rw [← he2, ← he1]
    exact ⟨rfl, rfl⟩
  · intro h sess hl hc
    obtain ⟨he1, he2⟩ := alookup_singleton_inv hl
    rw [← he2] at hc
    simp at hc
  · exact List.nodup_singleton ""

theorem INV_closed_pending_zero {s : ConnState} {evs : List Ev}
    (hI : INV s evs) (hcl : s.closed = true) : ∀ id, pendingCount s id = 0 := by
  obtain ⟨⟨hA, hB, hC, hN, hH⟩, hro, hsr, hde, hrn⟩ := hI
  intro id
  rw [pendingCount_eq_pendSum]
  apply pendSum_eq_zero
  intro p hp
  have hlp : alookup s.sessions p.1 = some p.2 := mem_alookup hN (by simpa using hp)
  have hcf : p.2.connected = false := by
    cases hx : p.2.connected with
    | false => rfl
    | true =>
      obtain ⟨hne, _⟩ := hsr p.1 p.2 hlp hx
      rw [hcl] at hne
      simp at hne
  exact hde p.1 p.2 hlp hcf

/-! ### Identifier monotonicity -/

theorem closeSession_sent (s : ConnState) (h : Nat) :
    sentIds (closeSession s h).2 = [] ∧ (closeSession s h).1.lastId = s.lastId := by
  cases hl : alookup s.sessions h with
  | none =>
    rw [closeSession_none hl]
    exact ⟨rfl, rfl⟩
  | some sess =>
    rw [closeSession_found hl]
    exact ⟨closeEvs_sent sess.callbacks h, rfl⟩

theorem closeAll_sent (L : List (String × Nat)) (s : ConnState) :
    sentIds (closeAll s L).2 = [] ∧ (closeAll s L).1.lastId = s.lastId := by
  induction L generalizing s with
  | nil => exact ⟨rfl, rfl⟩
  | cons q t ih =>
    simp only [closeAll]
    obtain ⟨e1, l1⟩ := closeSession_sent s q.2
    obtain ⟨e2, l2⟩ := ih (closeSession s q.2).1
    refine ⟨?_, l2.trans l1⟩
    rw [sentIds_append, e1, e2]
    rfl

theorem sessionOnMessage_sent {s : ConnState} {h : Nat} {o : InboundMessage}
    {r : ConnState × List Ev} (hok : sessionOnMessage s h o = Except.ok r) :
    sentIds r.2 = [] ∧ r.1.lastId = s.lastId := by
  cases hl : alookup s.sessions h with
  | none =>
    rw [sessionOnMessage_noHeap o hl] at hok
    cases hok
    exact ⟨rfl, rfl⟩
  | some sess =>
    cases hid : o.id with
    | none =>
      rw [sessionOnMessage_noId o hl hid] at hok
      cases hok
      exact ⟨rfl, rfl⟩
    | some n =>
      by_cases hn : n = 0
      · subst hn
        rw [sessionOnMessage_zeroId o hl hid] at hok
        cases hok
        exact ⟨rfl, rfl⟩
      · cases hcb : alookup sess.callbacks n with
        | none =>
          rw [sessionOnMessage_unmatched o hl hid hn hcb] at hok
          cases hok
        | some cb =>
          cases herr : o.error with
          | some err =>
            rw [sessionOnMessage_reject o hl hid hn hcb herr] at hok
            cases hok
            exact ⟨rfl, rfl⟩
          | none =>
            rw [sessionOnMessage_resolve o hl hid hn hcb herr] at hok
            cases hok
            exact ⟨rfl, rfl⟩

theorem step_sent (s : ConnState) (st : Step) :
    (sentIds (step s st).2 = [] ∧ s.lastId ≤ (step s st).1.lastId) ∨
    (sentIds (step s st).2 = [s.lastId + 1] ∧ (step s st).1.lastId = s.lastId + 1) := by
  cases st with
  | sendOrDie h m prm =>
    show (sentIds (sendOrDieF s h m prm).2 = [] ∧ s.lastId ≤ (sendOrDieF s h m prm).1.lastId) ∨ (sentIds (sendOrDieF s h m prm).2 = [s.lastId + 1] ∧ (sendOrDieF s h m prm).1.lastId = s.lastId + 1)
    cases hl : alookup s.sessions h with
    | none =>
      rw [sendOrDieF_none m prm hl]
      exact Or.inl ⟨rfl, Nat.le_refl _⟩
    | some sess =>
      cases hc : sess.connected with
      | false =>
        rw [sendOrDieF_closed m prm hl hc]
        exact Or.inl ⟨rfl, Nat.le_refl _⟩
      | true =>
        rw [sendOrDieF_open m prm hl hc]
        exact Or.inr ⟨rfl, rfl⟩
  | deliver o =>
    simp only [step]
    by_cases hcl : s.closed = true
    · rw [if_pos hcl]
      exact Or.inl ⟨rfl, Nat.le_refl _⟩
    · rw [if_neg hcl]
      cases hok : connOnMessage s o with
      | error e =>
        simp only [hok]
        exact Or.inl ⟨rfl, Nat.le_refl _⟩
      | ok r =>
        simp only [hok]
        cases hr : alookup s.registry (sessionKey o) with
        | none =>
          rw [connOnMessage_unknown o hr] at hok
          cases hok
        | some h =>
          rw [connOnMessage_found o hr] at hok
          obtain ⟨e1, l1⟩ := sessionOnMessage_sent hok
          exact Or.inl ⟨e1, Nat.le_of_eq l1.symm⟩
  | createSession sid =>
    exact Or.inl ⟨rfl, Nat.le_refl _⟩
  | disposeSession h =>
    show (sentIds (sessionDispose s h).2 = [] ∧ s.lastId ≤ (sessionDispose s h).1.lastId) ∨ _
    cases hl : alookup s.sessions h with
    | none =>
      rw [sessionDispose_none hl]
      exact Or.inl ⟨rfl, Nat.le_refl _⟩
    | some sess =>
      cases hc : sess.connected with
      | false =>
        rw [sessionDispose_closed hl hc]
        exact Or.inl ⟨rfl, Nat.le_refl _⟩
      | true =>
        rw [sessionDispose_open hl hc]
        obtain ⟨e1, l1⟩ := closeSession_sent s h
        exact Or.inl ⟨e1, Nat.le_of_eq l1.symm⟩
  | transportClose =>
    show (sentIds (connTransportClose s).2 = [] ∧ s.lastId ≤ (connTransportClose s).1.lastId) ∨ _
    cases hcl : s.closed with
    | true =>
      rw [connTransportClose_closed hcl]
      exact Or.inl ⟨rfl, Nat.le_refl _⟩
    | false =>
      rw [connTransportClose_open hcl]
      obtain ⟨e1, l1⟩ := closeAll_sent s.registry { s with closed := true }
      exact Or.inl ⟨e1, Nat.le_of_eq l1.symm⟩
  | dispose =>
    show (sentIds (connTransportClose s).2 = [] ∧ s.lastId ≤ (connTransportClose s).1.lastId) ∨ _
    cases hcl : s.closed with
    | true =>
      rw [connTransportClose_closed hcl]
      exact Or.inl ⟨rfl, Nat.le_refl _⟩
    | false =>
      rw [connTransportClose_open hcl]
      obtain ⟨e1, l1⟩ := closeAll_sent s.registry { s with closed := true }
      exact Or.inl ⟨e1, Nat.le_of_eq l1.symm⟩
  | detach h =>
    simp only [step]
    cases hok : sessionDetach s h with
    | error e =>
      simp only [hok]
      exact Or.inl ⟨rfl, Nat.le_refl _⟩
    | ok r =>
      simp only [hok]
      cases hl : alookup s.sessions h with
      | none =>
        rw [sessionDetach_noHeap hl] at hok
        cases hok
        exact Or.inl ⟨rfl, Nat.le_refl _⟩
      | some sess =>
        cases hc : sess.connected with
        | false =>
          rw [sessionDetach_closed hl hc] at hok
          cases hok
        | true =>
          rw [sessionDetach_open hl hc] at hok
          cases hok
          exact Or.inr ⟨rfl, rfl⟩

theorem runAux_sentMono (tr : List Step) :
    ∀ (s : ConnState) (evs : List Ev),
      List.Pairwise (· < ·) (sentIds evs) → (∀ i ∈ sentIds evs, i ≤ s.lastId) →
      List.Pairwise (· < ·) (sentIds (runAux s evs tr).2) ∧
        (∀ i ∈ sentIds (runAux s evs tr).2, i ≤ (runAux s evs tr).1.lastId) := by
  induction tr with
  | nil =>
    intro s evs hp hb
    exact ⟨hp, hb⟩
  | cons st t ih =>
    intro s evs hp hb
    rcases step_sent s st with ⟨he, hle⟩ | ⟨he, heq⟩
    · refine ih (step s st).1 (evs ++ (step s st).2) ?_ ?_
      · rw [sentIds_append, he, List.append_nil]
        exact hp
      · rw [sentIds_append, he, List.append_nil]
        intro i hi
        exact Nat.le_trans (hb i hi) hle
    · refine ih (step s st).1 (evs ++ (step s st).2) ?_ ?_
      · rw [sentIds_append, he]
        rw [List.pairwise_append]
        refine ⟨hp, List.pairwise_singleton _ _, ?_⟩
        intro a ha b hbm
        rw [List.mem_singleton] at hbm
        subst hbm
        have := hb a ha
        omega
      · rw [sentIds_append, he]
        intro i hi
        rcases List.mem_append.mp hi with hi | hi
        · have := hb i hi
          omega
        · rw [List.mem_singleton] at hi
          subst hi
          omega

theorem alookup_aset_self {α β : Type} [BEq α] [LawfulBEq α] (l : List (α × β)) (k : α) (v : β) :
    alookup (aset l k v) k = some v := by
  induction l with
  | nil =>
    show alookup [(k, v)] k = some v
    exact alookup_pair_self v [] (by simp)
  | cons p t ih =>
    cases hb : p.1 == k with
    | true =>
      show alookup (if (p.1 == k) = true then (k, v) :: t else p :: aset t k v) k = some v
      rw [if_pos hb]
      exact alookup_pair_self v t (by simp)
    | false =>
      show alookup (if (p.1 == k) = true then (k, v) :: t else p :: aset t k v) k = some v
      rw [if_neg (by simp [hb])]
      rw [alookup_cons_ne hb]
      exact ih

/-! ### Claim theorems -/

/-- C1 (amended): in every trace each command registered by `sendOrDie`
is settled at most once; and in every trace that respects the
`createSession` discipline (fresh identifier, connection open — the
caller guarantee the source documents) and ends with the connection
closed, every registered command is settled exactly once, by a matching
reply or by close-driven rejection.  Without the discipline a session
displaced from the registry keeps its pending commands unsettled
forever, as `c1_counterexample` shows. -/
theorem c1_exactly_once_settlement (tr : List Step) :
    (∀ id, countSettled (run tr).2 id ≤ 1) ∧
    (wfRun initConn tr = true → (run tr).1.closed = true →
      ∀ id, countSettled (run tr).2 id = countIssued (run tr).2 id ∧
        countIssued (run tr).2 id ≤ 1) := by
  constructor
  · intro id
    have hI := runAux_INV0 tr initConn [] INV0_init
    obtain ⟨hA, hB, hC, _, _⟩ := hI
    have h1 := hA id
    have h2 := hC id
    show countSettled (runAux initConn [] tr).2 id ≤ 1
    omega
  · intro hw hcl id
    have hI := runAux_INV tr initConn [] hw INV_init
    have hz := INV_closed_pending_zero hI hcl id
    obtain ⟨⟨hA, hB, hC, _, _⟩, _⟩ := hI
    have h1 := hA id
    have h2 := hC id
    constructor
    · show countSettled (runAux initConn [] tr).2 id = countIssued (runAux initConn [] tr).2 id
      omega
    · exact h2

/-- C1 counterexample: in `trCE` the command `Debugger.enable` (id 1)
is registered on the session displaced by the duplicate
`createSession "A"`; the connection closes, yet the command is never
settled — refuting "settled exactly once ... never neither" as stated
for arbitrary use of the API. -/
theorem c1_counterexample :
    (run trCE).1.closed = true ∧ countIssued (run trCE).2 1 = 1 ∧
      countSettled (run trCE).2 1 = 0 :=
  ⟨rfl, rfl, rfl⟩

/-- C1 witness: on the well-behaved trace `trW` the theorem yields
exactly-once settlement for command 1. -/
theorem c1_witness :
    countSettled (run trW).2 1 = countIssued (run trW).2 1 ∧
      countIssued (run trW).2 1 ≤ 1 :=
  (c1_exactly_once_settlement trW).2 rfl rfl 1

/-- C2 (code bug): at a state with `Debugger.enable` pending under id 1,
a reply `{id: 1, error: {message: "nope"}}` with no `method` field makes
`_onMessage` reject with the message built from the *reply's* `method`
field — rendered `undefined` — instead of the method captured at send
time; the produced message differs from the claimed
`Protocol error (Debugger.enable): ...`. -/
theorem c2_reply_error_uses_reply_method :
    (∃ s', sessionOnMessage sC2 0 msgC2 = Except.ok (s',
      [Ev.settled 1 (Outcome.rejected
        "Protocol error (undefined): nope - \x7b\"message\":\"nope\"\x7d")])) ∧
    "Protocol error (undefined): nope - \x7b\"message\":\"nope\"\x7d" ≠
      "Protocol error (Debugger.enable): nope - \x7b\"message\":\"nope\"\x7d" := by
  constructor
  · exact ⟨_, rfl⟩
  · decide

/-- C3: `Connection._onMessage` keys its lookup by
`object.sessionId || ''` (absent and empty collapse to the root key,
which the constructor binds to the root session), forwards to the
session found there, and otherwise throws an error naming the offending
identifier. -/
theorem c3_routing (s : ConnState) (o : InboundMessage) :
    ((o.sessionId = none ∨ o.sessionId = some "") → sessionKey o = "") ∧
    (∀ h, alookup s.registry (sessionKey o) = some h →
      connOnMessage s o = sessionOnMessage s h o) ∧
    (alookup s.registry (sessionKey o) = none →
      connOnMessage s o = Except.error ("Unknown session id: " ++ renderOptStr o.sessionId)) ∧
    alookup initConn.registry "" = some rootHandle := by
  refine ⟨?_, ?_, ?_, rfl⟩
  · rintro (h | h) <;> simp [sessionKey, h]
  · intro h hr
    exact connOnMessage_found o hr
  · intro hr
    exact connOnMessage_unknown o hr

/-- C3 witness: scenario D — the identifier `ghost` was never
registered, so message handling raises `Unknown session id: ghost`. -/
theorem c3_witness :
    connOnMessage initConn msgGhost = Except.error "Unknown session id: ghost" :=
  (c3_routing initConn msgGhost).2.2.1 rfl

/-- C4: along any trace, the command identifiers handed to the transport
by `Connection._send` are strictly increasing in send order — hence no
identifier is ever issued twice during the connection's lifetime. -/
theorem c4_ids_strictly_increasing (tr : List Step) :
    List.Pairwise (· < ·) (sentIds (run tr).2) := by
  have h := runAux_sentMono tr initConn [] List.Pairwise.nil ?_
  · exact h.1
  · intro i hi
    cases hi

/-- C5: `sendOrDie` on a session whose connection back-reference is
cleared (`isClosed()` true) rejects immediately with the
`Session closed` template; the state is returned unchanged, so the
`Connection` is not invoked (`_lastId` untouched) and no pending entry
is added. -/
theorem c5_send_on_closed_session (s : ConnState) (h : Nat) (sess : SessionState)
    (m : String) (prm : JValue) (hl : alookup s.sessions h = some sess)
    (hcl : SessionState.isClosed sess = true) :
    sendOrDieF s h m prm = (s, [Ev.settledImmediate m
      ("Protocol error (" ++ m ++ "): Session closed. Most likely the target has been closed.")]) := by
  have hc : sess.connected = false := by
    simp [SessionState.isClosed] at hcl
    exact hcl
  exact sendOrDieF_closed m prm hl hc

/-- C5 witness: scenario E — after disposal the root session is closed
and a strict send rejects immediately with the fixed message. -/
theorem c5_witness :
    sendOrDieF sD 0 "Runtime.enable" (JValue.obj []) = (sD, [Ev.settledImmediate "Runtime.enable" "Protocol error (Runtime.enable): Session closed. Most likely the target has been closed."]) :=
  c5_send_on_closed_session sD 0 rootClosedSess "Runtime.enable" (JValue.obj []) rfl rfl

/-- C6: `_onClose` rejects every pending command with
`Protocol error (<its method>): Target closed.` — exactly once per
pending entry — then leaves the callback map empty, clears the
connection back-reference (`isClosed()` becomes true) and emits the
`Disconnected` notification. -/
theorem c6_onClose_rejects_all (s : ConnState) (h : Nat) (sess : SessionState)
    (hl : alookup s.sessions h = some sess) :
    (∃ sess', alookup (closeSession s h).1.sessions h = some sess' ∧
      sess'.callbacks = [] ∧ SessionState.isClosed sess' = true) ∧
    (∀ id cb, (id, cb) ∈ sess.callbacks →
      Ev.settled id (Outcome.rejected
        ("Protocol error (" ++ cb.method ++ "): Target closed.")) ∈ (closeSession s h).2) ∧
    Ev.disconnected h ∈ (closeSession s h).2 ∧
    (∀ id, countSettled (closeSession s h).2 id = cbCount sess.callbacks id) := by
  refine ⟨⟨{ sess with callbacks := [], connected := false },
    closeSession_lookup_self hl, rfl, rfl⟩, ?_, ?_, ?_⟩
  · intro id cb hm
    rw [closeSession_found hl]
    exact List.mem_append_left _ (List.mem_map_of_mem _ hm)
  · rw [closeSession_found hl]
    exact List.mem_append_right _ (List.mem_singleton.mpr rfl)
  · intro id
    rw [closeSession_found hl]
    show countSettled (sess.callbacks.map _ ++ [Ev.disconnected h]) id = _
    rw [countSettled_append, countSettled_rejectMap]
    have hd : countSettled [Ev.disconnected h] id = 0 := rfl
    omega

/-- C6 witness: scenario B — closing the session holding the pending
`Debugger.enable` (id 1) rejects it with the `Target closed.` message
and leaves the session closed and empty. -/
theorem c6_witness :
    (∃ sess', alookup (closeSession sB 1).1.sessions 1 = some sess' ∧
      sess'.callbacks = [] ∧ SessionState.isClosed sess' = true) ∧
    Ev.settled 1 (Outcome.rejected "Protocol error (Debugger.enable): Target closed.") ∈
      (closeSession sB 1).2 :=
  ⟨(c6_onClose_rejects_all sB 1 sessB rfl).1,
   (c6_onClose_rejects_all sB 1 sessB rfl).2.1 1 { method := "Debugger.enable" }
     (List.mem_singleton.mpr rfl)⟩

/-- C7: `send` is `sendOrDie(...).catch(e => null)`: whatever settles
the strict promise, the best-effort settlement is never a rejection;
a strict resolution passes through unchanged and any strict rejection —
closed session, server error, or closure-driven — becomes a `null`
resolution. -/
theorem c7_best_effort_never_rejects (o : Outcome) :
    (∀ msg, catchToNull o ≠ Outcome.rejected msg) ∧
    (∀ v, o = Outcome.resolved v → catchToNull o = Outcome.resolved v) ∧
    (∀ msg, o = Outcome.rejected msg → catchToNull o = Outcome.resolved none) := by
  cases o with
  | resolved v =>
    refine ⟨?_, ?_, ?_⟩
    · intro msg hcon
      simp [catchToNull] at hcon
    · intro v' hv
      injection hv with he
      rw [← he]
      rfl
    · intro msg hv
      cases hv
  | rejected m =>
    refine ⟨?_, ?_, ?_⟩
    · intro msg hcon
      simp [catchToNull] at hcon
    · intro v' hv
      cases hv
    · intro msg hv
      rfl

/-- C7 witness: a closure-driven strict rejection surfaces to the
best-effort caller as a `null` resolution. -/
theorem c7_witness :
    catchToNull (Outcome.rejected "Protocol error (Debugger.enable): Target closed.") =
      Outcome.resolved none :=
  (c7_best_effort_never_rejects _).2.2 _ rfl

/-- C8 (amended): an inbound message whose identifier is truthy
(non-zero) and matches no pending command makes `_onMessage` throw the
bare fatal error of line 163; an identifier of `0` is falsy in JS and
takes the event path instead (see `c8_counterexample`). -/
theorem c8_unmatched_nonzero_id_fatal (s : ConnState) (h : Nat) (sess : SessionState)
    (o : InboundMessage) (n : Nat) (hl : alookup s.sessions h = some sess)
    (hid : o.id = some n) (hn : n ≠ 0) (hcb : alookup sess.callbacks n = none) :
    sessionOnMessage s h o = Except.error "" :=
  sessionOnMessage_unmatched o hl hid hn hcb

/-- C8 counterexample: the message `{id: 0, method: "Debugger.paused"}`
carries a command identifier with no matching pending entry, yet
`_onMessage` emits it as an event rather than raising a fatal error,
because `if (object.id)` is a JS truthiness test and `0` is falsy. -/
theorem c8_counterexample :
    sessionOnMessage initConn 0 msgZero = Except.ok (initConn,
      [Ev.emitted 0 (some "Debugger.paused")
        (some (JValue.obj [("reason", JValue.str "other")]))]) ∧
    ∀ e, sessionOnMessage initConn 0 msgZero ≠ Except.error e := by
  constructor
  · rfl
  · intro e hcon
    have h1 : sessionOnMessage initConn 0 msgZero = Except.ok (initConn,
      [Ev.emitted 0 (some "Debugger.paused")
        (some (JValue.obj [("reason", JValue.str "other")]))]) := rfl
    rw [h1] at hcon
    cases hcon

/-- C8 witness: identifier 5, never pending, raises the bare error. -/
theorem c8_witness : sessionOnMessage initConn 0 msgFive = Except.error "" :=
  c8_unmatched_nonzero_id_fatal initConn 0
    { sessionId := "", connected := true, callbacks := [] } msgFive 5 rfl rfl
    (by decide) rfl

/-- C9: a message with no identifier is emitted to subscribers of its
method name with the parameter object passed verbatim, and the state —
in particular the pending-command map — is returned unchanged. -/
theorem c9_event_emission (s : ConnState) (h : Nat) (sess : SessionState)
    (o : InboundMessage) (hl : alookup s.sessions h = some sess) (hid : o.id = none) :
    sessionOnMessage s h o = Except.ok (s, [Ev.emitted h o.method o.params]) :=
  sessionOnMessage_noId o hl hid

/-- C9 witness: scenario C — `Debugger.paused` with `{reason: "other"}`
is emitted verbatim and the connection state is untouched. -/
theorem c9_witness :
    sessionOnMessage initConn 0 msgEvt = Except.ok (initConn,
      [Ev.emitted 0 (some "Debugger.paused")
        (some (JValue.obj [("reason", JValue.str "other")]))]) :=
  c9_event_emission initConn 0
    { sessionId := "", connected := true, callbacks := [] } msgEvt rfl rfl

/-- C10: `createSession` with an already-registered identifier silently
replaces the old session in the registry (`Map.set`): the new handle is
distinct, the registry now resolves the identifier to it, the old
session object is untouched — pending commands intact, back-reference
uncleared, still believing it is open — and no event is emitted. -/
theorem c10_duplicate_createSession_replaces_silently (s : ConnState) (sid : String)
    (hOld : Nat) (sessOld : SessionState) (hH : handleBound s)
    (_hreg : alookup s.registry sid = some hOld)
    (hl : alookup s.sessions hOld = some sessOld) :
    (createSessionF s sid).1 ≠ hOld ∧
    alookup (createSessionF s sid).2.registry sid = some (createSessionF s sid).1 ∧
    alookup (createSessionF s sid).2.sessions hOld = some sessOld ∧
    (step s (Step.createSession sid)).2 = [] := by
  have hlt : hOld < s.nextHandle := hH (hOld, sessOld) (alookup_some_mem hl)
  refine ⟨?_, ?_, ?_, rfl⟩
  · show s.nextHandle ≠ hOld
    omega
  · show alookup (aset s.registry sid s.nextHandle) sid = some s.nextHandle
    exact alookup_aset_self s.registry sid s.nextHandle
  · show alookup (s.sessions ++ [(s.nextHandle, { sessionId := sid, connected := true, callbacks := [] })]) hOld = some sessOld
    exact alookup_append_some hl

/-- C10 witness: duplicating `createSession "A"` over the registered
handle 1 yields handle 2, reroutes `A` to it, and leaves the old
session object intact with no events. -/
theorem c10_witness :
    (createSessionF sA "A").1 ≠ 1 ∧
    alookup (createSessionF sA "A").2.registry "A" = some (createSessionF sA "A").1 ∧
    alookup (createSessionF sA "A").2.sessions 1 = some sessA ∧
    (step sA (Step.createSession "A")).2 = [] :=
  c10_duplicate_createSession_replaces_silently sA "A" 1 sessA
    (show ∀ p ∈ sA.sessions, p.1 < sA.nextHandle by decide) rfl rfl
